import Mathlib

/-!
Shallow embedding of the libttree T*-tree library (src/ttree.c, src/ttree.h,
src/ttree_defs.h) and verification of the frozen claims.

Modelling conventions:
* Key pointers are modelled as integers (`Key := Int`); the comparator is an
  explicit function parameter `Cmp := Key → Key → Int` whose sign is used
  exactly as the C code uses the sign of `cmp_func`.
* The node heap is an arena `nodes : List (Option TtreeNode)`; a node pointer
  is an arena index (`Nat`), a null pointer is `Option.none`, `free` stores
  `none` at the index.  `malloc` appends to the arena.
* C int fields (`min_idx`, `max_idx`, `bfc`, sides) are unbounded `Int`s; the
  original bit-field packing of `node_side` only ever stores and retrieves a
  side value, so the side is stored directly.
* Unbounded C loops (tree descent, ancestor walks, binary search) become
  fuelled recursions; every caller passes fuel that exceeds any possible chain
  length, so the fuel case is never hit on well-formed inputs.
* Reads of unused key slots (uninitialised memory in C) return the dummy key
  `0`; out-of-range writes are no-ops, matching the fact that the C code never
  relies on either behaviour on the paths verified here.
-/

namespace TStar

abbrev Key := Int
abbrev Cmp := Key → Key → Int

/-- ttree.h: node / cursor side constants. `TNODE_UNDEF = -1`, `TNODE_LEFT = 0`,
`TNODE_RIGHT = 1`. -/
def TNODE_UNDEF : Int := -1
def TNODE_LEFT : Int := 0
def TNODE_RIGHT : Int := 1
def TNODE_ROOT : Int := TNODE_UNDEF
def TNODE_BOUND : Int := TNODE_UNDEF

/-- ttree.h: cursor states. -/
def CURSOR_CLOSED : Int := 0
def CURSOR_OPENED : Int := 1
def CURSOR_PENDING : Int := 2

def TCSR_END : Int := -1
def TCSR_OK : Int := 0

/-- ttree_defs.h limits. -/
def TTREE_DEFAULT_NUMKEYS : Int := 8
def TNODE_ITEMS_MIN : Int := 2
def TNODE_ITEMS_MAX : Int := 4096

/-- POSIX EINVAL, the errno value set by `__ttree_init` on bad arguments. -/
def EINVAL : Int := 22

/-- ttree.h `struct ttree_node`.  `parent`, `successor`, `left`, `right` are
arena indices (`none` = NULL); `keys` is the key-slot array of length
`keys_per_tnode`. -/
structure TtreeNode where
  parent : Option Nat := none
  successor : Option Nat := none
  left : Option Nat := none
  right : Option Nat := none
  min_idx : Int := 0
  max_idx : Int := 0
  bfc : Int := 0
  node_side : Int := TNODE_ROOT
  keys : List Key := []
deriving DecidableEq, Repr, Inhabited

/-- ttree.h `struct ttree`.  `cmp_func` is modelled as an opaque non-zero
token recorded at init time (the executable comparator is passed separately
to each operation); `nodes` is the node arena. -/
structure Ttree where
  root : Option Nat := none
  cmp_func : Nat := 0
  key_offs : Int := 0
  keys_per_tnode : Int := 0
  keys_are_unique : Bool := false
  nodes : List (Option TtreeNode) := []
deriving DecidableEq, Repr, Inhabited

/-- ttree.h `struct ttree_cursor` (without the back pointer to the tree, which
is threaded explicitly). -/
structure TtreeCursor where
  tnode : Option Nat := none
  idx : Int := 0
  side : Int := TNODE_BOUND
  state : Int := CURSOR_CLOSED
deriving DecidableEq, Repr, Inhabited

/-- Dereference an arena index (a valid pointer in every verified run). -/
def getn (t : Ttree) (id : Nat) : TtreeNode := (t.nodes.getD id none).getD default

/-- Store a node at an arena index. -/
def setn (t : Ttree) (id : Nat) (n : TtreeNode) : Ttree :=
  { t with nodes := t.nodes.set id (some n) }

/-- Read-modify-write of one node. -/
def updn (t : Ttree) (id : Nat) (f : TtreeNode → TtreeNode) : Ttree :=
  setn t id (f (getn t id))

/-- `free(tnode)`: the arena slot becomes empty. -/
def freen (t : Ttree) (id : Nat) : Ttree :=
  { t with nodes := t.nodes.set id none }

/-- Read key slot `i` (0 for a negative / out-of-range index: unused slots are
uninitialised in C and never relied upon). -/
def lget (l : List Key) (i : Int) : Key :=
  if i < 0 then 0 else l.getD i.toNat 0

/-- Write key slot `i` (no-op outside the array, never relied upon). -/
def lset (l : List Key) (i : Int) (v : Key) : List Key :=
  if i < 0 then l else l.set i.toNat v

/-- ttree.h `tnode_num_keys`. -/
def tnode_num_keys (n : TtreeNode) : Int := n.max_idx - n.min_idx + 1

/-- ttree.h `tnode_is_empty`. -/
def tnode_is_empty (n : TtreeNode) : Prop := tnode_num_keys n = 0

instance (n : TtreeNode) : Decidable (tnode_is_empty n) :=
  inferInstanceAs (Decidable (tnode_num_keys n = 0))

/-- ttree.h `tnode_is_full`. -/
def tnode_is_full (t : Ttree) (n : TtreeNode) : Prop :=
  tnode_num_keys n = t.keys_per_tnode

instance (t : Ttree) (n : TtreeNode) : Decidable (tnode_is_full t n) :=
  inferInstanceAs (Decidable (tnode_num_keys n = t.keys_per_tnode))

/-- ttree.h `tnode_key_min`. -/
def tnode_key_min (n : TtreeNode) : Key := lget n.keys n.min_idx

/-- ttree.h `tnode_key_max`. -/
def tnode_key_max (n : TtreeNode) : Key := lget n.keys n.max_idx

/-- ttree.c `is_leaf_node`. -/
def is_leaf_node (n : TtreeNode) : Prop := n.left = none ∧ n.right = none

instance (n : TtreeNode) : Decidable (is_leaf_node n) :=
  inferInstanceAs (Decidable (n.left = none ∧ n.right = none))

/-- ttree.c `is_internal_node`. -/
def is_internal_node (n : TtreeNode) : Prop := n.left ≠ none ∧ n.right ≠ none

instance (n : TtreeNode) : Decidable (is_internal_node n) :=
  inferInstanceAs (Decidable (n.left ≠ none ∧ n.right ≠ none))

/-- ttree.c `is_half_leaf`: `(!l || !r) && !(l && r)`.  Note that this is also
true of a leaf (both children absent), exactly as the C macro is. -/
def is_half_leaf (n : TtreeNode) : Prop :=
  (n.left = none ∨ n.right = none) ∧ ¬(n.left ≠ none ∧ n.right ≠ none)

instance (n : TtreeNode) : Decidable (is_half_leaf n) :=
  inferInstanceAs (Decidable ((n.left = none ∨ n.right = none) ∧ ¬(n.left ≠ none ∧ n.right ≠ none)))

/-- `sides[s]` of the C union. -/
def sideGet (n : TtreeNode) (s : Int) : Option Nat :=
  if s = TNODE_LEFT then n.left else n.right

/-- assignment to `sides[s]`. -/
def sideSet (n : TtreeNode) (s : Int) (v : Option Nat) : TtreeNode :=
  if s = TNODE_LEFT then { n with left := v } else { n with right := v }

/-- ttree.h `tnode_set_side`. -/
def tnode_set_side (n : TtreeNode) (s : Int) : TtreeNode := { n with node_side := s }

/-- ttree.h `tnode_get_side`. -/
def tnode_get_side (n : TtreeNode) : Int := n.node_side

/-- ttree.c `opposite_side` (`!side` on a 0/1 side). -/
def opposite_side (s : Int) : Int := if s = 0 then 1 else 0

/-- ttree.c `side2bfc` (`__balance_factors[side]`; the value for the root side
`-1` is an out-of-bounds read in C that is computed but never used — modelled
as 0). -/
def side2bfc (s : Int) : Int :=
  if s = TNODE_LEFT then -1 else if s = TNODE_RIGHT then 1 else 0

/-- ttree.c `get_bfc_delta`. -/
def get_bfc_delta (n : TtreeNode) : Int := side2bfc (tnode_get_side n)

/-- ttree.c `subtree_is_unbalanced`. -/
def subtree_is_unbalanced (n : TtreeNode) : Prop := n.bfc < -1 ∨ n.bfc > 1

instance (n : TtreeNode) : Decidable (subtree_is_unbalanced n) :=
  inferInstanceAs (Decidable (n.bfc < -1 ∨ n.bfc > 1))

/-- ttree.c `left_heavy`. -/
def left_heavy (n : TtreeNode) : Prop := n.bfc < 0

instance (n : TtreeNode) : Decidable (left_heavy n) :=
  inferInstanceAs (Decidable (n.bfc < 0))

/-- ttree.c `first_tnode_idx`: `(keys_per_tnode >> 1) - 1`. -/
def first_tnode_idx (t : Ttree) : Int := t.keys_per_tnode / 2 - 1

/-- ttree.c `min_tnode_entries`: `keys_per_tnode - (keys_per_tnode >> 2)`. -/
def min_tnode_entries (t : Ttree) : Int :=
  t.keys_per_tnode - t.keys_per_tnode / 4

/-- ttree.h `ttree_key2item`. -/
def ttree_key2item (t : Ttree) (k : Key) : Key := k - t.key_offs

/-- ttree.h `ttree_item2key`. -/
def ttree_item2key (t : Ttree) (i : Key) : Key := i + t.key_offs

/-- `!!ptr` of C, used for leaf balance factors. -/
def boolInt (o : Option Nat) : Int := if o = none then 0 else 1

/-- Descending in-array copy: `c` iterations of `keys[i] = keys[i-1]; i--`,
starting at slot `i` (the shift loops of `increase_tnode_window` /
`decrease_tnode_window`). -/
def copyDesc (l : List Key) (i : Int) : Nat → List Key
  | 0 => l
  | c + 1 => copyDesc (lset l i (lget l (i - 1))) (i - 1) c

/-- Ascending in-array copy: `c` iterations of `keys[i] = keys[i+1]; i++`. -/
def copyAsc (l : List Key) (i : Int) : Nat → List Key
  | 0 => l
  | c + 1 => copyAsc (lset l i (lget l (i + 1))) (i + 1) c

/-- `memcpy(dst + dstOff, src + srcOff, c * sizeof(void *))` with `src` read as
a snapshot (equivalent to the C copies, which never read a slot after writing
it). -/
def copyRange (dst : List Key) (dstOff : Int) (src : List Key) (srcOff : Int) :
    Nat → List Key
  | 0 => dst
  | c + 1 => lset (copyRange dst dstOff src srcOff c) (dstOff + c) (lget src (srcOff + c))

/-- ttree.c `increase_tnode_window`: expand the key window by one slot on the
side with more free room (the `else` branch — expanding left — is taken on a
tie), shifting the keys between the insert position and the chosen end.
Returns the updated node and the updated insert index (`idx` is decremented
when the window grows to the left). -/
def increase_tnode_window (t : Ttree) (n : TtreeNode) (idx : Int) : TtreeNode × Int :=
  if t.keys_per_tnode - 1 - n.max_idx > n.min_idx then
    let mx := n.max_idx + 1
    let l := copyDesc n.keys mx (mx - idx + 1).toNat
    ({ n with max_idx := mx, keys := l }, idx)
  else
    let idx' := idx - 1
    let mn := n.min_idx - 1
    let l := copyAsc n.keys mn (idx' - mn).toNat
    ({ n with min_idx := mn, keys := l }, idx')

/-- ttree.c `decrease_tnode_window`: shrink the window towards the longer
side, shifting keys over the removed position; the returned index is
incremented when shrinking from the left. -/
def decrease_tnode_window (t : Ttree) (n : TtreeNode) (idx : Int) : TtreeNode × Int :=
  if t.keys_per_tnode - 1 - n.max_idx ≤ n.min_idx then
    let mx := n.max_idx - 1
    let l := copyAsc n.keys idx (mx - idx + 1).toNat
    ({ n with max_idx := mx, keys := l }, idx)
  else
    let mn := n.min_idx + 1
    let l := copyDesc n.keys idx (idx - mn + 1).toNat
    ({ n with min_idx := mn, keys := l }, idx + 1)

/-- The live keys of a node: slots `min_idx .. max_idx`. -/
def windowKeys (n : TtreeNode) : List Key :=
  (List.range (tnode_num_keys n).toNat).map (fun (j : Nat) => lget n.keys (n.min_idx + (j : Int)))

/-- ttree.c `__rotate_single`, the raw pointer surgery of a single rotation on
the subtree rooted at arena index `pid` (`side = TNODE_LEFT` is a right
rotation).  Every assignment of the C body is replayed in order on the arena;
the returned index is the new subtree root (`*target`). -/
def __rotate_single (t : Ttree) (pid : Nat) (side : Int) : Ttree × Nat :=
  let opside := opposite_side side
  let sid := (sideGet (getn t pid) side).getD 0
  let t := updn t sid (fun s => tnode_set_side s (tnode_get_side (getn t pid)))
  let t := updn t pid (fun p => sideSet p side (sideGet (getn t sid) opside))
  let t := updn t sid (fun s => sideSet s opside (some pid))
  let t := updn t pid (fun p => tnode_set_side p opside)
  let t := updn t sid (fun s => { s with parent := (getn t pid).parent })
  let t := updn t pid (fun p => { p with parent := some sid })
  let t :=
    match sideGet (getn t pid) side with
    | none => t
    | some cid =>
      let t := updn t cid (fun c => { c with parent := some pid })
      updn t cid (fun c => tnode_set_side c side)
  let t :=
    match (getn t sid).parent with
    | none => t
    | some gid =>
      if sideGet (getn t gid) side = some pid then
        updn t gid (fun g => sideSet g side (some sid))
      else
        updn t gid (fun g => sideSet g opside (some sid))
  (t, sid)

/-- ttree.c `rotate_single`: raw rotation followed by the balance-factor
recomputation of the demoted node and the new subtree root. -/
def rotate_single (t : Ttree) (pid : Nat) (side : Int) : Ttree × Nat :=
  let res := __rotate_single t pid side
  let t := res.1
  let rid := res.2
  let nid := (sideGet (getn t rid) (opposite_side side)).getD 0
  let t := updn t nid (fun n =>
    if is_internal_node n then
      { n with bfc := if (getn t rid).bfc ≠ side2bfc side then side2bfc side else 0 }
    else
      { n with bfc := boolInt n.right - boolInt n.left })
  let t := updn t rid (fun r => { r with bfc := r.bfc + side2bfc (opposite_side side) })
  (t, rid)

/-- ttree.c `rotate_double`: rotate the `side` child on `opside`, fix the
demoted grandchild's balance, then rotate the root on `side` and fix the
demoted former root; the new root's balance is zero. -/
def rotate_double (t : Ttree) (pid : Nat) (side : Int) : Ttree × Nat :=
  let opside := opposite_side side
  let n0 := (sideGet (getn t pid) side).getD 0
  let res1 := __rotate_single t n0 opside
  let t := res1.1
  let rid := res1.2
  let cid := (sideGet (getn t rid) side).getD 0
  let t := updn t cid (fun c =>
    if is_internal_node c then
      { c with bfc := if (getn t rid).bfc = side2bfc opside then side2bfc side else 0 }
    else
      { c with bfc := boolInt c.right - boolInt c.left })
  let nid := (getn t rid).parent.getD 0
  let res2 := __rotate_single t pid side
  let t := res2.1
  let tid := res2.2
  let t := updn t nid (fun n =>
    if is_internal_node n then
      { n with bfc := if (getn t tid).bfc = side2bfc side then side2bfc opside else 0 }
    else
      { n with bfc := boolInt n.right - boolInt n.left })
  let t := updn t tid (fun r => { r with bfc := 0 })
  (t, tid)

/-- The common tail of the T*-tree key migration in ttree.c `rebalance`
(the code after the `no_cursor` label): copy `nkeys - 1` donor keys into the
new subtree root at offset `offs`, then collapse the donor to the single key
at `keys[donor.max_idx]`, stored at the canonical first index. -/
def migrate_finish (t : Ttree) (nid did : Nat) (offs nkeys : Int)
    (cursor : Option TtreeCursor) : Ttree × Option TtreeCursor :=
  let dn := getn t did
  let t := updn t nid (fun p =>
    { p with keys := copyRange p.keys offs dn.keys dn.min_idx (nkeys - 1).toNat })
  let fti := first_tnode_idx t
  let t := updn t did (fun d =>
    { d with keys := lset d.keys fti (lget d.keys d.max_idx),
             min_idx := fti, max_idx := fti })
  (t, cursor)

/-- ttree.c `rebalance`, lines 347–414: the T*-tree-specific key migration
run after a double rotation.  If the new subtree root holds a single key and
both children satisfy `is_half_leaf`, the child with more keys (the right one
on a tie) donates all but one of its keys to the root.  Note the faithful
`goto no_cursor` of the left-donor branch: with a NULL cursor the
`n->max_idx = n->min_idx++` adjustment of the donor window is skipped. -/
def rebalance_migrate (t : Ttree) (nid : Nat) (cursor : Option TtreeCursor) :
    Ttree × Option TtreeCursor :=
  let M := t.keys_per_tnode
  let node := getn t nid
  if tnode_num_keys node = 1 ∧
     is_half_leaf (getn t (node.left.getD 0)) ∧ is_half_leaf (getn t (node.right.getD 0)) then
    if tnode_num_keys (getn t (node.right.getD 0)) ≥ tnode_num_keys (getn t (node.left.getD 0)) then
      let did := node.right.getD 0
      let dn := getn t did
      let nkeys := tnode_num_keys dn
      let t := updn t nid (fun p =>
        { p with keys := lset p.keys 0 (lget p.keys p.min_idx),
                 min_idx := 0, max_idx := nkeys - 1 })
      let offs : Int := 1
      let cursor :=
        match cursor with
        | none => none
        | some c =>
          if c.tnode = some did then
            if c.idx < dn.max_idx then
              some { c with tnode := some nid,
                            idx := (getn t nid).min_idx + (c.idx - dn.min_idx + 1) }
            else
              some { c with idx := first_tnode_idx t }
          else some c
      migrate_finish t nid did offs nkeys cursor
    else
      let did := node.left.getD 0
      let dn := getn t did
      let nkeys := tnode_num_keys dn
      let t := updn t nid (fun p =>
        { p with keys := lset p.keys (M - 1) (lget p.keys p.min_idx),
                 min_idx := M - nkeys, max_idx := M - 1 })
      let offs := M - nkeys
      match cursor with
      | none =>
        -- `goto no_cursor`: the donor-window adjustment below is skipped.
        migrate_finish t nid did offs nkeys none
      | some c =>
        let c :=
          if c.tnode = some did then
            if c.idx > dn.min_idx then
              { c with tnode := some nid, idx := (getn t nid).min_idx + (c.idx - dn.min_idx) }
            else
              { c with idx := first_tnode_idx t }
          else c
        let t := updn t did (fun d => { d with max_idx := d.min_idx, min_idx := d.min_idx + 1 })
        migrate_finish t nid did offs nkeys (some c)
  else (t, cursor)

/-- ttree.c `rebalance`, `out:` label: if the old root node acquired a parent,
the tree root pointer is redirected to the new subtree root. -/
def rebalance_fix_root (t : Ttree) (nid : Nat) : Ttree :=
  match t.root with
  | none => t
  | some rid => if (getn t rid).parent ≠ none then { t with root := some nid } else t

/-- ttree.c `rebalance`: single rotation when the root's and heavy child's
balance factors add to magnitude ≥ 2, otherwise double rotation followed by
the T*-tree key migration.  Returns the middle result `*node` (the new
subtree root) as well. -/
def rebalance (t : Ttree) (nodeId : Nat) (cursor : Option TtreeCursor) :
    Ttree × Nat × Option TtreeCursor :=
  let nd := getn t nodeId
  let lh : Int := if left_heavy nd then 1 else 0
  let heavy := (sideGet nd (opposite_side lh)).getD 0
  let sum := (nd.bfc + (getn t heavy).bfc).natAbs
  if sum ≥ 2 then
    let res := rotate_single t nodeId (opposite_side lh)
    (rebalance_fix_root res.1 res.2, res.2, cursor)
  else
    let res := rotate_double t nodeId (opposite_side lh)
    let res2 := rebalance_migrate res.1 res.2 cursor
    (rebalance_fix_root res2.1 res.2, res.2, res2.2)

/-- The ancestor walk of ttree.c `__add_successor`, case 2.2: find the first
ancestor whose successor is the new node's parent and retarget it. -/
def add_succ_loop (t : Ttree) (target newId : Nat) : Nat → Option Nat → Ttree
  | 0, _ => t
  | _, none => t
  | fuel + 1, some nd =>
    if (getn t nd).successor = some target then
      updn t nd (fun x => { x with successor := some newId })
    else add_succ_loop t target newId fuel (getn t nd).parent

/-- ttree.c `__add_successor`: fix the successor chain after a new leaf `nid`
was linked below its parent. -/
def __add_successor (t : Ttree) (nid : Nat) : Ttree :=
  let n := getn t nid
  let pid := n.parent.getD 0
  if tnode_get_side n = TNODE_RIGHT then
    let t := updn t nid (fun x => { x with successor := (getn t pid).successor })
    updn t pid (fun p => { p with successor := some nid })
  else
    let t := updn t nid (fun x => { x with successor := some pid })
    if tnode_get_side (getn t pid) = TNODE_RIGHT then
      updn t ((getn t pid).parent.getD 0) (fun g => { g with successor := some nid })
    else if tnode_get_side (getn t pid) = TNODE_LEFT then
      add_succ_loop t pid nid t.nodes.length (getn t pid).parent
    else t

/-- The ancestor walk of ttree.c `__remove_successor`. -/
def rem_succ_loop (t : Ttree) (nid : Nat) : Nat → Option Nat → Ttree
  | 0, _ => t
  | _, none => t
  | fuel + 1, some cur =>
    if (getn t cur).successor = some nid then
      updn t cur (fun x => { x with successor := (getn t nid).parent })
    else rem_succ_loop t nid fuel (getn t cur).parent

/-- ttree.c `__remove_successor`: fix the successor chain before leaf `nid`
is unlinked. -/
def __remove_successor (t : Ttree) (nid : Nat) : Ttree :=
  let n := getn t nid
  if tnode_get_side n = TNODE_RIGHT then
    updn t (n.parent.getD 0) (fun p => { p with successor := n.successor })
  else if tnode_get_side (getn t (n.parent.getD 0)) = TNODE_RIGHT then
    updn t ((getn t (n.parent.getD 0)).parent.getD 0) (fun g => { g with successor := n.parent })
  else
    rem_succ_loop t nid t.nodes.length n.parent

/-- The upward walk of ttree.c `fixup_after_insertion`.  The third component
of the result is a ghost counter of `rebalance` invocations (it instruments
the translation without altering it). -/
def fixup_ins_loop (t : Ttree) (cursor : Option TtreeCursor) (bfc_delta : Int) :
    Nat → Option Nat → Ttree × Option TtreeCursor × Nat
  | _, none => (t, cursor, 0)
  | 0, some _ => (t, cursor, 0)
  | fuel + 1, some nid =>
    let t := updn t nid (fun n => { n with bfc := n.bfc + bfc_delta })
    if (getn t nid).bfc = 0 then (t, cursor, 0)
    else if subtree_is_unbalanced (getn t nid) then
      let res := rebalance t nid cursor
      (res.1, res.2.2, 1)
    else
      fixup_ins_loop t cursor (get_bfc_delta (getn t nid)) fuel (getn t nid).parent

/-- ttree.c `fixup_after_insertion`: add the new leaf to the successor chain,
then walk upward adjusting balance factors, stopping on a balanced ancestor or
after one rebalance. -/
def fixup_after_insertion (t : Ttree) (nid : Nat) (cursor : Option TtreeCursor) :
    Ttree × Option TtreeCursor × Nat :=
  let bfc_delta := get_bfc_delta (getn t nid)
  let t := __add_successor t nid
  fixup_ins_loop t cursor bfc_delta t.nodes.length (getn t nid).parent

/-- The upward walk of ttree.c `fixup_after_deletion`. -/
def fixup_del_loop (t : Ttree) (cursor : Option TtreeCursor) (bfc_delta : Int) :
    Nat → Option Nat → Ttree × Option TtreeCursor
  | _, none => (t, cursor)
  | 0, some _ => (t, cursor)
  | fuel + 1, some nid =>
    let t := updn t nid (fun n => { n with bfc := n.bfc - bfc_delta })
    if (getn t nid).bfc + bfc_delta = 0 then (t, cursor)
    else
      let bfc_delta := get_bfc_delta (getn t nid)
      if subtree_is_unbalanced (getn t nid) then
        let res := rebalance t nid cursor
        if (getn res.1 res.2.1).bfc ≠ 0 then (res.1, res.2.2)
        else fixup_del_loop res.1 res.2.2 bfc_delta fuel (getn res.1 res.2.1).parent
      else fixup_del_loop t cursor bfc_delta fuel (getn t nid).parent

/-- ttree.c `fixup_after_deletion` (the cursor argument is always NULL at the
call site in `ttree_delete_at_cursor`). -/
def fixup_after_deletion (t : Ttree) (nid : Nat) (cursor : Option TtreeCursor) :
    Ttree × Option TtreeCursor :=
  let node := (getn t nid).parent
  let bfc_delta := get_bfc_delta (getn t nid)
  let t := __remove_successor t nid
  fixup_del_loop t cursor bfc_delta t.nodes.length node

/-- ttree.c `allocate_ttree_node`: `malloc` of a node-sized buffer with the
header zeroed (a zero side bit-field reads back as `TNODE_ROOT`); the key
slots are uninitialised, modelled as all-zero. -/
def allocate_ttree_node (t : Ttree) : Ttree × Nat :=
  let id := t.nodes.length
  let fresh : TtreeNode :=
    { parent := none, successor := none, left := none, right := none,
      min_idx := 0, max_idx := 0, bfc := 0, node_side := TNODE_ROOT,
      keys := List.replicate t.keys_per_tnode.toNat 0 }
  ({ t with nodes := t.nodes ++ [some fresh] }, id)

/-- The binary-search loop of ttree.c `lookup_inside_tnode`; returns the hit
slot (if any) and the final `floor` as the miss insertion index. -/
def lookup_inside_tnode_loop (cmp : Cmp) (keys : List Key) (key : Key) :
    Nat → Int → Int → Option Int × Int
  | 0, floor, _ => (none, floor)
  | fuel + 1, floor, ceil =>
    if floor ≤ ceil then
      let mid := (floor + ceil) / 2
      let c := cmp key (lget keys mid)
      if c < 0 then lookup_inside_tnode_loop cmp keys key fuel floor (mid - 1)
      else if c > 0 then lookup_inside_tnode_loop cmp keys key fuel (mid + 1) ceil
      else (some mid, mid)
    else (none, floor)

/-- ttree.c `ttree_cursor_open_on_node` with `TNODE_SEEK_START` (`seek = 0`)
or `TNODE_SEEK_END`. -/
def ttree_cursor_open_on_node (t : Ttree) (tnode : Option Nat) (seek : Int) : TtreeCursor :=
  match tnode with
  | some id =>
    { tnode := some id,
      idx := if seek = 0 then (getn t id).min_idx else (getn t id).max_idx,
      side := TNODE_BOUND, state := CURSOR_OPENED }
  | none =>
    { tnode := none, idx := first_tnode_idx t, side := TNODE_BOUND,
      state := CURSOR_PENDING }

/-- The `out:` epilogue of ttree.c `ttree_lookup`: open the cursor on the
target node, then overwrite side, index and state. -/
def mkOutCursor (target : Option Nat) (side idx st : Int) : TtreeCursor :=
  { tnode := target, idx := idx, side := side, state := st }

/-- The descent loop of ttree.c `ttree_lookup` (Lehman–Carey: compare with
the minimum key only, marking nodes passed on the right).  Returns
`(target, marked, side, cmp_res, hit)`. -/
def lookup_descend (cmp : Cmp) (t : Ttree) (key : Key) :
    Nat → Nat → Option Nat → Nat × Option Nat × Int × Int × Bool
  | 0, nid, marked => (nid, marked, TNODE_BOUND, 0, false)
  | fuel + 1, nid, marked =>
    let n := getn t nid
    let c := cmp key (tnode_key_min n)
    if c < 0 then
      match n.left with
      | none => (nid, marked, TNODE_LEFT, c, false)
      | some l => lookup_descend cmp t key fuel l marked
    else if c > 0 then
      match n.right with
      | none => (nid, some nid, TNODE_RIGHT, c, false)
      | some r => lookup_descend cmp t key fuel r (some nid)
    else (nid, marked, TNODE_BOUND, c, true)

/-- The miss epilogue of ttree.c `ttree_lookup`: a non-full target yields a
`TNODE_BOUND` pending cursor at its min or one past its max; a full target
keeps the descent side and the initial `first_tnode_idx` index. -/
def lookup_miss_tail (t : Ttree) (target : Nat) (marked : Option Nat)
    (side cmp_res : Int) : Option Key × TtreeCursor :=
  if ¬ tnode_is_full t (getn t target) then
    let idx := if marked ≠ some target ∨ cmp_res < 0 then (getn t target).min_idx
               else (getn t target).max_idx + 1
    (none, mkOutCursor (some target) TNODE_BOUND idx CURSOR_PENDING)
  else
    (none, mkOutCursor (some target) side (first_tnode_idx t) CURSOR_PENDING)

/-- ttree.c `ttree_lookup`: returns the found item (or `none`) and the cursor
the C version writes through its out-parameter. -/
def ttree_lookup (cmp : Cmp) (t : Ttree) (key : Key) : Option Key × TtreeCursor :=
  match t.root with
  | none =>
    (none, mkOutCursor none TNODE_BOUND (first_tnode_idx t) CURSOR_PENDING)
  | some rootId =>
    let d := lookup_descend cmp t key (t.nodes.length + 1) rootId none
    let target := d.1
    let marked := d.2.1
    let side := d.2.2.1
    let cmp_res := d.2.2.2.1
    let hit := d.2.2.2.2
    if hit then
      (some (ttree_key2item t (tnode_key_min (getn t target))),
       mkOutCursor (some target) TNODE_BOUND (getn t target).min_idx CURSOR_OPENED)
    else
      match marked with
      | some mk0 =>
        let c := cmp key (tnode_key_max (getn t mk0))
        if c ≤ 0 then
          if c = 0 then
            (some (ttree_key2item t (tnode_key_max (getn t mk0))),
             mkOutCursor (some mk0) TNODE_BOUND (getn t mk0).max_idx CURSOR_OPENED)
          else
            let bs := lookup_inside_tnode_loop cmp (getn t mk0).keys key
              (t.keys_per_tnode.toNat + 2) ((getn t mk0).min_idx + 1) ((getn t mk0).max_idx - 1)
            match bs.1 with
            | some i =>
              (some (ttree_key2item t (lget (getn t mk0).keys i)),
               mkOutCursor (some mk0) TNODE_BOUND i CURSOR_OPENED)
            | none =>
              (none, mkOutCursor (some mk0) TNODE_BOUND bs.2 CURSOR_PENDING)
        else lookup_miss_tail t target marked side cmp_res
      | none => lookup_miss_tail t target marked side cmp_res

/-- The `create_new_node:` tail of ttree.c `ttree_insert_at_cursor`: allocate
a leaf holding `key` at `c.idx`, link it below `atId` on side `c.side`, open
the working cursor on it and run the post-insert fixup.  When the working
cursor is the detached copy (`frozen = true`, after `ttree_cursor_copy`), the
caller-visible cursor is the frozen one. -/
def insert_new_node (t : Ttree) (atId : Nat) (key : Key) (c : TtreeCursor)
    (callerCursor : TtreeCursor) (frozen : Bool) : Ttree × TtreeCursor :=
  let res := allocate_ttree_node t
  let t := res.1
  let newId := res.2
  let t := updn t newId (fun n =>
    { n with keys := lset n.keys c.idx key, min_idx := c.idx, max_idx := c.idx,
             parent := some atId })
  let t := updn t atId (fun a => sideSet a c.side (some newId))
  let t := updn t newId (fun n => tnode_set_side n c.side)
  let c := { c with tnode := some newId, state := CURSOR_OPENED }
  let fres := fixup_after_insertion t newId (some c)
  if frozen then (fres.1, callerCursor) else (fres.1, (fres.2.1).getD c)

/-- ttree.c `ttree_insert_at_cursor`.  Returns the new tree and the cursor as
seen by the caller; note that on the full-bound-node path the C code copies
the cursor into a local (`tmp_cursor`) and all later cursor updates go to the
copy, so the caller's cursor keeps the state from just after the bound node's
window was expanded. -/
def ttree_insert_at_cursor (t : Ttree) (cursor : TtreeCursor) (item : Key) :
    Ttree × TtreeCursor :=
  let key := ttree_item2key t item
  match t.root with
  | none =>
    let res := allocate_ttree_node t
    let t := res.1
    let id := res.2
    let fti := first_tnode_idx t
    let t := updn t id (fun n =>
      { n with keys := lset n.keys fti key, min_idx := fti, max_idx := fti })
    let t := { t with root := some id }
    let t := updn t id (fun n => tnode_set_side n TNODE_ROOT)
    (t, ttree_cursor_open_on_node t (some id) 0)
  | some _ =>
    let nid := cursor.tnode.getD 0
    if cursor.side = TNODE_BOUND then
      if tnode_is_full t (getn t nid) then
        let tmp := lget (getn t nid).keys (getn t nid).max_idx
        let t := updn t nid (fun n => { n with max_idx := n.max_idx - 1 })
        let iw := increase_tnode_window t (getn t nid) cursor.idx
        let t := setn t nid iw.1
        let t := updn t nid (fun n => { n with keys := lset n.keys iw.2 key })
        let key := tmp
        let callerCursor := { cursor with idx := iw.2 }
        let c := callerCursor
        if (getn t nid).successor = none ∨ (getn t nid).right = none then
          insert_new_node t nid key
            { c with side := TNODE_RIGHT, idx := first_tnode_idx t } callerCursor true
        else
          let sid := (getn t nid).successor.getD 0
          if tnode_is_full t (getn t sid) then
            insert_new_node t sid key
              { c with side := TNODE_LEFT, idx := first_tnode_idx t } callerCursor true
          else
            let c := { c with idx := (getn t sid).min_idx, tnode := some sid }
            let iw2 := increase_tnode_window t (getn t sid) c.idx
            let t := setn t sid iw2.1
            let t := updn t sid (fun n => { n with keys := lset n.keys iw2.2 key })
            (t, callerCursor)
      else
        let iw := increase_tnode_window t (getn t nid) cursor.idx
        let t := setn t nid iw.1
        let t := updn t nid (fun n => { n with keys := lset n.keys iw.2 key })
        (t, { cursor with idx := iw.2, state := CURSOR_OPENED })
    else
      insert_new_node t nid key cursor cursor false

/-- ttree.c `ttree_insert`: lookup, duplicate check, then placed insertion. -/
def ttree_insert (cmp : Cmp) (t : Ttree) (item : Key) : Int × Ttree :=
  let lk := ttree_lookup cmp t (ttree_item2key t item)
  if lk.1.isSome ∧ t.keys_are_unique then (-1, t)
  else
    let res := ttree_insert_at_cursor t lk.2 item
    (0, res.1)

/-- ttree.c `ttree_delete_at_cursor`, final step: if the worked-on node is an
empty leaf, unlink it, run the post-delete fixup and free it. -/
def del_phase4 (t : Ttree) (cursor : TtreeCursor) (tid : Nat) (ret : Key) :
    Key × Ttree × TtreeCursor :=
  if ¬ tnode_is_empty (getn t tid) then (ret, t, cursor)
  else
    match (getn t tid).parent with
    | none => (ret, freen { t with root := none } tid, cursor)
    | some pid =>
      let t := updn t pid (fun p => sideSet p (tnode_get_side (getn t tid)) none)
      let fres := fixup_after_deletion t tid none
      (ret, freen fres.1 tid, cursor)

/-- ttree.c `ttree_delete_at_cursor`, half-leaf merge step: merge the single
child leaf into the node if its keys fit, shifting the node's window when
the end it is merged onto lacks room. -/
def del_phase3 (t : Ttree) (cursor : TtreeCursor) (tid : Nat) (ret : Key) :
    Key × Ttree × TtreeCursor :=
  if ¬ is_leaf_node (getn t tid) then
    let nid := ((getn t tid).left.orElse (fun _ => (getn t tid).right)).getD 0
    let items := tnode_num_keys (getn t nid)
    if items > t.keys_per_tnode - tnode_num_keys (getn t tid) then (ret, t, cursor)
    else
      let step :=
        if tnode_get_side (getn t nid) = TNODE_RIGHT then
          let diff := t.keys_per_tnode - (getn t tid).max_idx - items - 1
          let step0 :=
            if diff < 0 then
              let t := updn t tid (fun x =>
                { x with keys := copyRange x.keys (x.min_idx + diff) x.keys x.min_idx
                           (tnode_num_keys x).toNat,
                         min_idx := x.min_idx + diff, max_idx := x.max_idx + diff })
              let cursor :=
                if cursor.tnode = some tid then { cursor with idx := cursor.idx + diff }
                else cursor
              (t, cursor)
            else (t, cursor)
          let t := step0.1
          let t := updn t tid (fun x =>
            { x with keys := copyRange x.keys (x.max_idx + 1) (getn t nid).keys
                       (getn t nid).min_idx items.toNat,
                     max_idx := x.max_idx + items })
          (t, step0.2)
        else
          let diff := (getn t tid).min_idx - items
          let step0 :=
            if diff < 0 then
              let t := updn t tid (fun x =>
                { x with keys := copyRange x.keys (x.min_idx - diff) x.keys x.min_idx
                           (tnode_num_keys x).toNat,
                         min_idx := x.min_idx - diff, max_idx := x.max_idx - diff })
              let cursor :=
                if cursor.tnode = some tid then { cursor with idx := cursor.idx - diff }
                else cursor
              (t, cursor)
            else (t, cursor)
          let t := step0.1
          let t := updn t tid (fun x =>
            { x with keys := copyRange x.keys (x.min_idx - items) (getn t nid).keys
                       (getn t nid).min_idx items.toNat,
                     min_idx := x.min_idx - items })
          (t, step0.2)
      let t := updn step.1 nid (fun x => { x with min_idx := 1, max_idx := 0 })
      del_phase4 t step.2 nid ret
  else del_phase4 t cursor tid ret

/-- ttree.c `ttree_delete_at_cursor`, internal-node step: refill the node by
borrowing the successor's minimum key at `max_idx + 1`, then continue on the
successor if it became a half-leaf or empty leaf. -/
def del_phase2 (t : Ttree) (cursor : TtreeCursor) (tid : Nat) (ret : Key) :
    Key × Ttree × TtreeCursor :=
  if is_internal_node (getn t tid) then
    let nid := (getn t tid).successor.getD 0
    let idx0 := (getn t tid).max_idx + 1
    let iw := increase_tnode_window t (getn t tid) idx0
    let t := setn t tid iw.1
    let t := updn t tid (fun x => { x with keys := lset x.keys iw.2 (tnode_key_min (getn t nid)) })
    let t := updn t nid (fun s => { s with min_idx := s.min_idx + 1 })
    let cursor :=
      if cursor.idx > (getn t tid).max_idx then { cursor with idx := (getn t tid).max_idx }
      else cursor
    if ¬ tnode_is_empty (getn t nid) ∧ is_leaf_node (getn t nid) then (ret, t, cursor)
    else del_phase3 t cursor nid ret
  else del_phase3 t cursor tid ret

/-- ttree.c `ttree_delete_at_cursor`: contract the window, close the cursor,
clamp its index, and stop early when the node keeps more than
`min_tnode_entries` keys; otherwise run the borrow / merge / unlink phases. -/
def ttree_delete_at_cursor (t : Ttree) (cursor : TtreeCursor) :
    Key × Ttree × TtreeCursor :=
  let tid := cursor.tnode.getD 0
  let ret := ttree_key2item t (lget (getn t tid).keys cursor.idx)
  let dw := decrease_tnode_window t (getn t tid) cursor.idx
  let t := setn t tid dw.1
  let cursor := { cursor with idx := dw.2, state := CURSOR_CLOSED }
  let cursor :=
    if cursor.idx > (getn t tid).max_idx then { cursor with idx := (getn t tid).max_idx }
    else cursor
  if tnode_num_keys (getn t tid) > min_tnode_entries t then (ret, t, cursor)
  else del_phase2 t cursor tid ret

/-- ttree.c `ttree_delete`: lookup then placed deletion. -/
def ttree_delete (cmp : Cmp) (t : Ttree) (key : Key) : Option Key × Ttree :=
  let lk := ttree_lookup cmp t key
  match lk.1 with
  | none => (none, t)
  | some r =>
    let res := ttree_delete_at_cursor t lk.2
    (some r, res.2.1)

/-- ttree.c `ttree_replace` exactly as written at line 944: the internal call
is `ttree_lookup(ttree, &cursor, key)`, i.e. the ADDRESS OF THE LOCAL CURSOR
is passed as the search key and the user's key is passed as the cursor
out-parameter.  The cursor's stack address is modelled by the extra argument
`cursor_addr`; the lookup therefore searches for `cursor_addr`, not for
`key`. -/
def ttree_replace (cmp : Cmp) (t : Ttree) (cursor_addr key new_item : Key) :
    Int × Ttree :=
  let lk := ttree_lookup cmp t cursor_addr
  if lk.1 = none then (-1, t)
  else
    let t := updn t (lk.2.tnode.getD 0) (fun n =>
      { n with keys := lset n.keys lk.2.idx (ttree_item2key t new_item) })
    (0, t)

/-- ttree.c `__ttree_init`.  The tree pointer and the comparator are null
pointers exactly when the corresponding argument is `none` (the comparator is
recorded as its opaque token).  Returns (return value, errno value if set,
initialized tree if any). -/
def __ttree_init (ttree_ptr : Option Unit) (num_keys : Int) (is_unique : Bool)
    (cmpf : Option Nat) (key_offs : Int) : Int × Option Int × Option Ttree :=
  if num_keys < TNODE_ITEMS_MIN ∨ num_keys > TNODE_ITEMS_MAX ∨
     ttree_ptr = none ∨ cmpf = none then
    (-1, some EINVAL, none)
  else
    (0, none,
     some { root := none, cmp_func := cmpf.getD 0, key_offs := key_offs,
            keys_per_tnode := num_keys, keys_are_unique := is_unique, nodes := [] })

/-- ttree.h `ttree_key_from_cursor`: only an `OPENED` cursor yields the key
slot it names. -/
def ttree_key_from_cursor (t : Ttree) (c : TtreeCursor) : Option Key :=
  if c.state = CURSOR_OPENED then some (lget (getn t (c.tnode.getD 0)).keys c.idx)
  else none

/-- ttree.h `ttree_item_from_cursor`: NULL when the key is NULL (key pointer
0 in the model), otherwise the key translated back by the key offset. -/
def ttree_item_from_cursor (t : Ttree) (c : TtreeCursor) : Option Key :=
  match ttree_key_from_cursor t c with
  | none => none
  | some k => if k = 0 then none else some (ttree_key2item t k)

/-- ttree.h `__tnode_sidemost` specialised to `ttree_node_leftmost`. -/
def ttree_node_leftmost (t : Ttree) : Nat → Option Nat → Option Nat
  | 0, o => o
  | _, none => none
  | fuel + 1, some id =>
    match (getn t id).left with
    | none => some id
    | some l => ttree_node_leftmost t fuel (some l)

/-- Keys collected along the successor chain starting at a node. -/
def successor_chain_keys (t : Ttree) : Nat → Option Nat → List Key
  | 0, _ => []
  | _, none => []
  | fuel + 1, some id => windowKeys (getn t id) ++ successor_chain_keys t fuel (getn t id).successor

/-- In-order traversal of the whole tree via the successor chain, starting at
the leftmost node (the traversal the spec's Order invariant quantifies
over, and the one `ttree_destroy` and the test driver use). -/
def ttree_traversal (t : Ttree) : List Key :=
  successor_chain_keys t (t.nodes.length + 1) (ttree_node_leftmost t (t.nodes.length + 1) t.root)

/-- Per-node key lists along the successor chain. -/
def successor_chain_parts (t : Ttree) : Nat → Option Nat → List (List Key)
  | 0, _ => []
  | _, none => []
  | fuel + 1, some id =>
    windowKeys (getn t id) :: successor_chain_parts t fuel (getn t id).successor

/-- The assignment of keys to nodes, in tree order: the list of per-node key
lists met along the successor chain from the leftmost node. -/
def chainPartition (t : Ttree) : List (List Key) :=
  successor_chain_parts t (t.nodes.length + 1) (ttree_node_leftmost t (t.nodes.length + 1) t.root)

/-- Strictly increasing under the comparator: each adjacent pair compares
negative. -/
def cmpSorted (cmp : Cmp) : List Key → Prop
  | a :: b :: rest => cmp a b < 0 ∧ cmpSorted cmp (b :: rest)
  | _ => True

instance cmpSortedDec (cmp : Cmp) : (l : List Key) → Decidable (cmpSorted cmp l)
  | [] => isTrue trivial
  | [_] => isTrue trivial
  | a :: b :: rest =>
    have : Decidable (cmpSorted cmp (b :: rest)) := cmpSortedDec cmp (b :: rest)
    inferInstanceAs (Decidable (cmp a b < 0 ∧ cmpSorted cmp (b :: rest)))

/-- The comparator used in all concrete scenarios: integer comparison by
subtraction, exactly the `__cmpfunc` of the repository's test drivers. -/
def intCmp : Cmp := fun a b => a - b

/-- A fresh tree as produced by `__ttree_init(&t, m, true, cmp, 0)`. -/
def mkTtree (m : Int) : Ttree :=
  { root := none, cmp_func := 1, key_offs := 0, keys_per_tnode := m,
    keys_are_unique := true, nodes := [] }

/-- Insert a list of keys in order with `ttree_insert` (key offset 0, so items
and keys coincide). -/
def insSeq (t : Ttree) (ks : List Key) : Ttree :=
  ks.foldl (fun t k => (ttree_insert intCmp t k).2) t

/-- C1 scenario, step 1: `M = 8`; fill the root with 20..27, hang the left
leaf 10, the right leaf 30, fill the left leaf with 11..17, and add the leaf
18 as its right child. -/
def c1_grown : Ttree :=
  insSeq (mkTtree 8) [20, 21, 22, 23, 24, 25, 26, 27, 10, 30, 11, 12, 13, 14, 15, 16, 17, 18]

/-- C1 scenario, step 2: delete 27, leaving the root (an internal node) with
seven keys. -/
def c1_pruned : Ttree := (ttree_delete intCmp c1_grown 27).2

/-- C1 scenario, step 3: delete 30.  The right leaf empties and is removed;
the post-delete fixup finds the root with balance −2 and performs a double
rotation whose key migration picks the left child (8 keys) over the right
(7 keys) as donor — with the NULL cursor of the deletion path. -/
def c1_final : Ttree := (ttree_delete intCmp c1_pruned 30).2

/-- C2 scenario: `M = 8`; root full with 1000..8000, left leaf 500..570,
right leaf 9000, then delete 8000 so the root keeps 7 keys (one free slot).
The left leaf is full, has no right child, and its successor is the root. -/
def c2_pre : Ttree :=
  (ttree_delete intCmp
    (insSeq (mkTtree 8)
      [1000, 2000, 3000, 4000, 5000, 6000, 7000, 8000,
       500, 9000, 510, 520, 530, 540, 550, 560, 570]) 8000).2

/-- The pending bound cursor produced by looking 555 up in `c2_pre`: it names
the full left leaf (arena index 1). -/
def c2_cursor : TtreeCursor := (ttree_lookup intCmp c2_pre 555).2

/-- The C2 insertion: `ttree_insert_at_cursor` of 555 at the pending cursor. -/
def c2_post : Ttree := (ttree_insert_at_cursor c2_pre c2_cursor 555).1

/-- A follow-up insertion into `c2_post`: the left leaf (again full) now has
both a successor with free room and a right child, so the displaced maximum
560 is inserted at the successor's minimum position. -/
def c2_succ_post : Ttree :=
  (ttree_insert_at_cursor c2_post (ttree_lookup intCmp c2_post 545).2 545).1

/-- C3 / C6 witness heap: `M = 4`; root (index 0) holds 100,200,300 with
balance −2 after an imbalance, its left child (index 1) is the full leaf
50,60,70,75 with a right child (index 2) holding the single key 80.  This is
exactly the shape `rebalance` sees when `fixup_after_deletion` calls it in
the C1 scenario, scaled down to `M = 4`. -/
def c3_tree : Ttree :=
  { root := some 0, cmp_func := 1, key_offs := 0, keys_per_tnode := 4,
    keys_are_unique := true,
    nodes :=
      [some { parent := none, successor := none, left := some 1, right := none,
              min_idx := 0, max_idx := 2, bfc := -2, node_side := TNODE_ROOT,
              keys := [100, 200, 300, 0] },
       some { parent := some 0, successor := some 2, left := none, right := some 2,
              min_idx := 0, max_idx := 3, bfc := 1, node_side := TNODE_LEFT,
              keys := [50, 60, 70, 75] },
       some { parent := some 1, successor := some 0, left := none, right := none,
              min_idx := 1, max_idx := 1, bfc := 0, node_side := TNODE_RIGHT,
              keys := [0, 80, 0, 0] }] }

/-- The heavy side `rebalance` picks on `c3_tree` (the root is left-heavy). -/
def c3_side : Int :=
  opposite_side (if left_heavy (getn c3_tree 0) then (1 : Int) else 0)

/-- The tree produced by the double rotation `rebalance` performs on
`c3_tree` before the key migration. -/
def c3_rot : Ttree := (rotate_double c3_tree 0 c3_side).1

/-- C4 scenario: a tree whose single node holds 10, 20, 30. -/
def c4_tree : Ttree := insSeq (mkTtree 8) [10, 20, 30]

/-- C5 tie scenario: an `M = 4` node whose window `[1, 2]` holds 5, 6 — one
free slot on each side. -/
def c5_node : TtreeNode :=
  { parent := none, successor := none, left := none, right := none,
    min_idx := 1, max_idx := 2, bfc := 0, node_side := TNODE_ROOT,
    keys := [91, 5, 6, 92] }

/-- C8 scenario: `M = 8`, a single full root 10..80. -/
def c8_pre : Ttree := insSeq (mkTtree 8) [10, 20, 30, 40, 50, 60, 70, 80]

/-- C8 scenario after inserting 45: the root overflows, 80 is displaced into
a freshly created right leaf. -/
def c8_mid : Ttree := (ttree_insert intCmp c8_pre 45).2

/-- C8 scenario after deleting 45 again: the root keeps 7 > `8 - 8/4` keys,
so deletion stops without merging the leaf back. -/
def c8_post : Ttree := (ttree_delete intCmp c8_mid 45).2

/-- C8-amended witness tree: `M = 8`, one root holding 10..70 (seven keys,
one free slot, above the low-water mark `8 - 8/4 = 6`). -/
def c8w_tree : Ttree := insSeq (mkTtree 8) [10, 20, 30, 40, 50, 60, 70]

theorem length_lset (l : List Key) (i : Int) (v : Key) : (lset l i v).length = l.length := by
  unfold lset; split <;> simp

theorem lget_neg (l : List Key) (i : Int) (h : i < 0) : lget l i = 0 := by
  unfold lget; simp [h]

theorem lget_lset_eq (l : List Key) (i : Int) (v : Key) (h0 : 0 ≤ i)
    (h1 : i < (l.length : Int)) : lget (lset l i v) i = v := by
  unfold lget lset
  rw [if_neg (by omega), if_neg (by omega), List.getD_eq_getElem?_getD,
    List.getElem?_set_eq_of_lt _ (by omega)]
  rfl

theorem lget_lset_ne (l : List Key) (i j : Int) (v : Key) (h : i ≠ j) :
    lget (lset l i v) j = lget l j := by
  unfold lget lset
  by_cases hj : j < 0
  · simp [hj]
  by_cases hi : i < 0
  · simp [hi]
  rw [if_neg hi, if_neg hj, if_neg hj, List.getD_eq_getElem?_getD,
    List.getD_eq_getElem?_getD, List.getElem?_set_ne (by omega)]

theorem length_copyDesc (c : Nat) : ∀ (l : List Key) (i : Int),
    (copyDesc l i c).length = l.length := by
  induction c with
  | zero => intro l i; rfl
  | succ c ih => intro l i; rw [copyDesc, ih, length_lset]

theorem length_copyAsc (c : Nat) : ∀ (l : List Key) (i : Int),
    (copyAsc l i c).length = l.length := by
  induction c with
  | zero => intro l i; rfl
  | succ c ih => intro l i; rw [copyAsc, ih, length_lset]

theorem length_copyRange (c : Nat) (dst src : List Key) (dOff sOff : Int) :
    (copyRange dst dOff src sOff c).length = dst.length := by
  induction c with
  | zero => rfl
  | succ c ih => rw [copyRange, length_lset, ih]

/-- Pointwise effect of the descending shift loop (`keys[i] = keys[i-1]`,
`c` steps from `i` downward): slots in `(i-c, i]` take the value one slot
below, everything else is untouched. -/
theorem lget_copyDesc (c : Nat) : ∀ (l : List Key) (i : Int),
    i < (l.length : Int) → 0 ≤ i + 1 - c → ∀ j,
    lget (copyDesc l i c) j =
      if i - c < j ∧ j ≤ i then lget l (j - 1) else lget l j := by
  induction c with
  | zero =>
    intro l i _ _ j
    rw [copyDesc, if_neg (by omega)]
  | succ c ih =>
    intro l i hi hc j
    rw [copyDesc, ih (lset l i (lget l (i - 1))) (i - 1) (by rw [length_lset]; omega)
      (by push_cast at hc ⊢; omega) j]
    by_cases h1 : i - 1 - c < j ∧ j ≤ i - 1
    · rw [if_pos h1, if_pos (by push_cast; push_cast at h1; omega),
        lget_lset_ne _ _ _ _ (by omega)]
    · rw [if_neg h1]
      by_cases h2 : j = i
      · subst h2
        rw [lget_lset_eq _ _ _ (by push_cast at hc; omega) hi, if_pos (by push_cast; omega)]
      · rw [lget_lset_ne _ _ _ _ (by omega), if_neg (by push_cast; push_cast at h1; omega)]

/-- Pointwise effect of the ascending shift loop (`keys[i] = keys[i+1]`,
`c` steps from `i` upward): slots in `[i, i+c)` take the value one slot
above, everything else is untouched. -/
theorem lget_copyAsc (c : Nat) : ∀ (l : List Key) (i : Int),
    0 ≤ i → i + c ≤ (l.length : Int) → ∀ j,
    lget (copyAsc l i c) j =
      if i ≤ j ∧ j < i + c then lget l (j + 1) else lget l j := by
  induction c with
  | zero =>
    intro l i _ _ j
    rw [copyAsc, if_neg (by omega)]
  | succ c ih =>
    intro l i h0 hlen j
    rw [copyAsc, ih (lset l i (lget l (i + 1))) (i + 1) (by omega)
      (by rw [length_lset]; push_cast at hlen ⊢; omega) j]
    by_cases h1 : i + 1 ≤ j ∧ j < i + 1 + c
    · rw [if_pos h1, if_pos (by push_cast; push_cast at h1; omega),
        lget_lset_ne _ _ _ _ (by omega)]
    · rw [if_neg h1]
      by_cases h2 : j = i
      · subst h2
        rw [lget_lset_eq _ _ _ h0 (by push_cast at hlen; omega), if_pos (by push_cast; omega)]
      · rw [lget_lset_ne _ _ _ _ (by omega), if_neg (by push_cast; push_cast at h1; omega)]

/-- Pointwise effect of `memcpy`: slots `[dOff, dOff + c)` of the destination
take the corresponding source slots, everything else is untouched. -/
theorem lget_copyRange (c : Nat) (dst src : List Key) (dOff sOff : Int)
    (h0 : 0 ≤ dOff) (h1 : dOff + c ≤ (dst.length : Int)) : ∀ j,
    lget (copyRange dst dOff src sOff c) j =
      if dOff ≤ j ∧ j < dOff + c then lget src (sOff + (j - dOff)) else lget dst j := by
  induction c with
  | zero =>
    intro j
    rw [copyRange, if_neg (by omega)]
  | succ c ih =>
    intro j
    rw [copyRange]
    by_cases h2 : j = dOff + c
    · subst h2
      rw [lget_lset_eq _ _ _ (by omega)
        (by rw [length_copyRange]; push_cast at h1 ⊢; omega)]
      rw [if_pos (by push_cast; omega)]
      congr 1
      omega
    · rw [lget_lset_ne _ _ _ _ (by omega), ih (by push_cast at h1 ⊢; omega)]
      by_cases h3 : dOff ≤ j ∧ j < dOff + c
      · rw [if_pos h3, if_pos (by push_cast; push_cast at h3; omega)]
      · rw [if_neg h3, if_neg (by push_cast; push_cast at h3; omega)]

theorem length_windowKeys (n : TtreeNode) :
    (windowKeys n).length = (tnode_num_keys n).toNat := by
  unfold windowKeys; rw [List.length_map, List.length_range]

theorem getElem_windowKeys (n : TtreeNode) (j : Nat) (h : j < (windowKeys n).length) :
    (windowKeys n)[j] = lget n.keys (n.min_idx + (j : Int)) := by
  simp only [windowKeys, List.getElem_map, List.getElem_range]

theorem getD_windowKeys (n : TtreeNode) (j : Nat) (hj : j < (tnode_num_keys n).toNat) :
    (windowKeys n).getD j 0 = lget n.keys (n.min_idx + (j : Int)) := by
  rw [List.getD_eq_getElem _ _ (by rw [length_windowKeys]; omega), getElem_windowKeys]

theorem getD_insertIdx (x : Key) : ∀ (p : Nat) (l : List Key), p ≤ l.length → ∀ j : Nat,
    (l.insertIdx p x).getD j 0 =
      if j < p then l.getD j 0 else if j = p then x else l.getD (j - 1) 0 := by
  intro p
  induction p with
  | zero =>
    intro l _ j
    rw [List.insertIdx_zero, if_neg (show ¬ j < 0 by omega)]
    match j with
    | 0 => rw [if_pos rfl, List.getD_cons_zero]
    | j + 1 =>
      rw [if_neg (show ¬ j + 1 = 0 by omega), List.getD_cons_succ]
      congr 1
  | succ p ih =>
    intro l hp j
    match l, hp with
    | a :: tl, hp =>
      rw [List.insertIdx_succ_cons]
      match j with
      | 0 =>
        rw [List.getD_cons_zero, if_pos (show 0 < p + 1 by omega), List.getD_cons_zero]
      | j + 1 =>
        rw [List.getD_cons_succ, ih tl (by simpa using hp) j]
        rcases lt_trichotomy j p with h1 | h1 | h1
        · rw [if_pos h1, if_pos (show j + 1 < p + 1 by omega), List.getD_cons_succ]
        · subst h1
          rw [if_neg (show ¬ j < j by omega), if_pos rfl,
            if_neg (show ¬ j + 1 < j + 1 by omega), if_pos rfl]
        · rw [if_neg (show ¬ j < p by omega), if_neg (show ¬ j = p by omega),
            if_neg (show ¬ j + 1 < p + 1 by omega), if_neg (show ¬ j + 1 = p + 1 by omega),
            show j + 1 - 1 = (j - 1) + 1 by omega, List.getD_cons_succ]

theorem getD_eraseIdx : ∀ (l : List Key) (p : Nat), p < l.length → ∀ j : Nat,
    (l.eraseIdx p).getD j 0 = if j < p then l.getD j 0 else l.getD (j + 1) 0 := by
  intro l
  induction l with
  | nil => intro p hp; simp at hp
  | cons a tl ih =>
    intro p hp j
    match p with
    | 0 => rw [List.eraseIdx_cons_zero, if_neg (show ¬ j < 0 by omega), List.getD_cons_succ]
    | p + 1 =>
      rw [List.eraseIdx_cons_succ]
      match j with
      | 0 =>
        rw [List.getD_cons_zero, if_pos (show 0 < p + 1 by omega), List.getD_cons_zero]
      | j + 1 =>
        rw [List.getD_cons_succ, ih p (by simpa using hp) j]
        by_cases h1 : j < p
        · rw [if_pos h1, if_pos (show j + 1 < p + 1 by omega), List.getD_cons_succ]
        · rw [if_neg h1, if_neg (show ¬ j + 1 < p + 1 by omega), List.getD_cons_succ]

/-- Extensionality for a node window against an explicit list, at the level
of the total reads `lget` / `getD`. -/
theorem windowKeys_ext (n : TtreeNode) (L : List Key)
    (hlen : (tnode_num_keys n).toNat = L.length)
    (h : ∀ j : Nat, j < L.length → lget n.keys (n.min_idx + (j : Int)) = L.getD j 0) :
    windowKeys n = L := by
  apply List.ext_getElem (by rw [length_windowKeys, hlen])
  intro j h1 h2
  rw [getElem_windowKeys, h j h2, List.getD_eq_getElem]

theorem increase_fields (t : Ttree) (n : TtreeNode) (idx : Int) :
    (increase_tnode_window t n idx).1.parent = n.parent ∧
    (increase_tnode_window t n idx).1.successor = n.successor ∧
    (increase_tnode_window t n idx).1.left = n.left ∧
    (increase_tnode_window t n idx).1.right = n.right ∧
    (increase_tnode_window t n idx).1.bfc = n.bfc ∧
    (increase_tnode_window t n idx).1.node_side = n.node_side := by
  unfold increase_tnode_window
  split <;> exact ⟨rfl, rfl, rfl, rfl, rfl, rfl⟩

theorem increase_num (t : Ttree) (n : TtreeNode) (idx : Int) :
    tnode_num_keys (increase_tnode_window t n idx).1 = tnode_num_keys n + 1 := by
  unfold increase_tnode_window tnode_num_keys
  split <;> (show _ - _ + 1 = _; ring)

theorem increase_keys_length (t : Ttree) (n : TtreeNode) (idx : Int) :
    (increase_tnode_window t n idx).1.keys.length = n.keys.length := by
  unfold increase_tnode_window
  split
  · exact length_copyDesc ..
  · exact length_copyAsc ..

theorem decrease_fields (t : Ttree) (n : TtreeNode) (idx : Int) :
    (decrease_tnode_window t n idx).1.parent = n.parent ∧
    (decrease_tnode_window t n idx).1.successor = n.successor ∧
    (decrease_tnode_window t n idx).1.left = n.left ∧
    (decrease_tnode_window t n idx).1.right = n.right ∧
    (decrease_tnode_window t n idx).1.bfc = n.bfc ∧
    (decrease_tnode_window t n idx).1.node_side = n.node_side := by
  unfold decrease_tnode_window
  split <;> exact ⟨rfl, rfl, rfl, rfl, rfl, rfl⟩

theorem decrease_num (t : Ttree) (n : TtreeNode) (idx : Int) :
    tnode_num_keys (decrease_tnode_window t n idx).1 = tnode_num_keys n - 1 := by
  unfold decrease_tnode_window tnode_num_keys
  split <;> (show _ - _ + 1 = _; ring)

theorem decrease_keys_length (t : Ttree) (n : TtreeNode) (idx : Int) :
    (decrease_tnode_window t n idx).1.keys.length = n.keys.length := by
  unfold decrease_tnode_window
  split
  · exact length_copyAsc ..
  · exact length_copyDesc ..

theorem increase_eq_pos (t : Ttree) (n : TtreeNode) (idx : Int)
    (hb : t.keys_per_tnode - 1 - n.max_idx > n.min_idx) :
    increase_tnode_window t n idx =
      ({ n with
          max_idx := n.max_idx + 1,
          keys := copyDesc n.keys (n.max_idx + 1) (n.max_idx + 1 - idx + 1).toNat }, idx) := by
  unfold increase_tnode_window
  rw [if_pos hb]

theorem increase_eq_neg (t : Ttree) (n : TtreeNode) (idx : Int)
    (hb : ¬ t.keys_per_tnode - 1 - n.max_idx > n.min_idx) :
    increase_tnode_window t n idx =
      ({ n with
          min_idx := n.min_idx - 1,
          keys := copyAsc n.keys (n.min_idx - 1) (idx - 1 - (n.min_idx - 1)).toNat }, idx - 1) := by
  unfold increase_tnode_window
  rw [if_neg hb]

theorem decrease_eq_pos (t : Ttree) (n : TtreeNode) (idx : Int)
    (hb : t.keys_per_tnode - 1 - n.max_idx ≤ n.min_idx) :
    decrease_tnode_window t n idx =
      ({ n with
          max_idx := n.max_idx - 1,
          keys := copyAsc n.keys idx (n.max_idx - 1 - idx + 1).toNat }, idx) := by
  unfold decrease_tnode_window
  rw [if_pos hb]

theorem decrease_eq_neg (t : Ttree) (n : TtreeNode) (idx : Int)
    (hb : ¬ t.keys_per_tnode - 1 - n.max_idx ≤ n.min_idx) :
    decrease_tnode_window t n idx =
      ({ n with
          min_idx := n.min_idx + 1,
          keys := copyDesc n.keys idx (idx - (n.min_idx + 1) + 1).toNat }, idx + 1) := by
  unfold decrease_tnode_window
  rw [if_neg hb]

/-- `increase_tnode_window` followed by the caller's `keys[idx] = key` store
realises a logical insertion at offset `idx - min_idx` into the window, in
both growth directions. -/
theorem windowKeys_increase_set (t : Ttree) (n : TtreeNode) (idx : Int) (key : Key)
    (hlen : (n.keys.length : Int) = t.keys_per_tnode)
    (h0 : 0 ≤ n.min_idx) (hwin : n.min_idx ≤ n.max_idx + 1)
    (hmax : n.max_idx < t.keys_per_tnode)
    (hidx1 : n.min_idx ≤ idx) (hidx2 : idx ≤ n.max_idx + 1)
    (hnf : tnode_num_keys n < t.keys_per_tnode) :
    windowKeys { (increase_tnode_window t n idx).1 with
      keys := lset (increase_tnode_window t n idx).1.keys (increase_tnode_window t n idx).2 key } =
    (windowKeys n).insertIdx (idx - n.min_idx).toNat key := by
  have hnum : tnode_num_keys n = n.max_idx - n.min_idx + 1 := rfl
  have hWlen : (windowKeys n).length = (tnode_num_keys n).toNat := length_windowKeys n
  have hple : (idx - n.min_idx).toNat ≤ (windowKeys n).length := by rw [hWlen]; omega
  by_cases hb : t.keys_per_tnode - 1 - n.max_idx > n.min_idx
  · rw [increase_eq_pos t n idx hb]
    apply windowKeys_ext
    · rw [List.length_insertIdx _ _ hple, hWlen]
      simp only [tnode_num_keys]
      omega
    · intro j hj
      rw [List.length_insertIdx _ _ hple, hWlen] at hj
      rw [getD_insertIdx _ _ _ hple]
      have hcd := lget_copyDesc (n.max_idx + 1 - idx + 1).toNat n.keys (n.max_idx + 1)
        (by omega) (by omega)
      show lget (lset (copyDesc n.keys (n.max_idx + 1) (n.max_idx + 1 - idx + 1).toNat) idx key)
        (n.min_idx + (j : Int)) = _
      rcases lt_trichotomy (j : Int) (idx - n.min_idx) with h1 | h1 | h1
      · rw [if_pos (by omega), lget_lset_ne _ _ _ _ (by omega), hcd,
          if_neg (by omega), getD_windowKeys _ _ (by omega)]
      · rw [if_neg (by omega), if_pos (by omega)]
        have : n.min_idx + (j : Int) = idx := by omega
        rw [this, lget_lset_eq _ _ _ (by omega) (by rw [length_copyDesc]; omega)]
      · rw [if_neg (by omega), if_neg (by omega), lget_lset_ne _ _ _ _ (by omega), hcd,
          if_pos (by omega), getD_windowKeys _ _ (by omega)]
        congr 1
        omega
  · have hmin1 : 1 ≤ n.min_idx := by omega
    rw [increase_eq_neg t n idx hb]
    apply windowKeys_ext
    · rw [List.length_insertIdx _ _ hple, hWlen]
      simp only [tnode_num_keys]
      omega
    · intro j hj
      rw [List.length_insertIdx _ _ hple, hWlen] at hj
      rw [getD_insertIdx _ _ _ hple]
      have hca := lget_copyAsc (idx - 1 - (n.min_idx - 1)).toNat n.keys (n.min_idx - 1)
        (by omega) (by omega)
      show lget (lset (copyAsc n.keys (n.min_idx - 1) (idx - 1 - (n.min_idx - 1)).toNat)
        (idx - 1) key) (n.min_idx - 1 + (j : Int)) = _
      rcases lt_trichotomy (j : Int) (idx - n.min_idx) with h1 | h1 | h1
      · rw [if_pos (by omega), lget_lset_ne _ _ _ _ (by omega), hca,
          if_pos (by omega), getD_windowKeys _ _ (by omega)]
        congr 1
        omega
      · rw [if_neg (by omega), if_pos (by omega)]
        have : n.min_idx - 1 + (j : Int) = idx - 1 := by omega
        rw [this, lget_lset_eq _ _ _ (by omega) (by rw [length_copyAsc]; omega)]
      · rw [if_neg (by omega), if_neg (by omega), lget_lset_ne _ _ _ _ (by omega), hca,
          if_neg (by omega), getD_windowKeys _ _ (by omega)]
        congr 1
        omega

/-- `decrease_tnode_window` realises a logical removal at offset
`idx - min_idx` from the window, in both shrink directions. -/
theorem windowKeys_decrease (t : Ttree) (n : TtreeNode) (idx : Int)
    (hlen : (n.keys.length : Int) = t.keys_per_tnode)
    (h0 : 0 ≤ n.min_idx) (hwin : n.min_idx ≤ n.max_idx)
    (hmax : n.max_idx < t.keys_per_tnode)
    (hidx1 : n.min_idx ≤ idx) (hidx2 : idx ≤ n.max_idx) :
    windowKeys (decrease_tnode_window t n idx).1 =
    (windowKeys n).eraseIdx (idx - n.min_idx).toNat := by
  have hWlen : (windowKeys n).length = (tnode_num_keys n).toNat := length_windowKeys n
  have hnum : tnode_num_keys n = n.max_idx - n.min_idx + 1 := rfl
  have hplt : (idx - n.min_idx).toNat < (windowKeys n).length := by rw [hWlen]; omega
  have hel := List.length_eraseIdx_add_one hplt
  by_cases hb : t.keys_per_tnode - 1 - n.max_idx ≤ n.min_idx
  · rw [decrease_eq_pos t n idx hb]
    apply windowKeys_ext
    · show (n.max_idx - 1 - n.min_idx + 1).toNat = _
      omega
    · intro j hj
      have hj' : (j : Int) < n.max_idx - n.min_idx := by omega
      rw [getD_eraseIdx _ _ hplt]
      have hca := lget_copyAsc (n.max_idx - 1 - idx + 1).toNat n.keys idx
        (by omega) (by omega)
      show lget (copyAsc n.keys idx (n.max_idx - 1 - idx + 1).toNat)
        (n.min_idx + (j : Int)) = _
      by_cases h1 : (j : Int) < idx - n.min_idx
      · rw [if_pos (by omega), hca, if_neg (by omega), getD_windowKeys _ _ (by omega)]
      · rw [if_neg (by omega), hca, if_pos (by omega), getD_windowKeys _ _ (by omega)]
        congr 1
        omega
  · rw [decrease_eq_neg t n idx hb]
    apply windowKeys_ext
    · show (n.max_idx - (n.min_idx + 1) + 1).toNat = _
      omega
    · intro j hj
      have hj' : (j : Int) < n.max_idx - n.min_idx := by omega
      rw [getD_eraseIdx _ _ hplt]
      have hcd := lget_copyDesc (idx - (n.min_idx + 1) + 1).toNat n.keys idx
        (by omega) (by omega)
      show lget (copyDesc n.keys idx (idx - (n.min_idx + 1) + 1).toNat)
        (n.min_idx + 1 + (j : Int)) = _
      by_cases h1 : (j : Int) < idx - n.min_idx
      · rw [if_pos (by omega), hcd, if_pos (by omega), getD_windowKeys _ _ (by omega)]
        congr 1
        omega
      · rw [if_neg (by omega), hcd, if_neg (by omega), getD_windowKeys _ _ (by omega)]
        congr 1
        omega

theorem setn_nodes_length (t : Ttree) (id : Nat) (n : TtreeNode) :
    (setn t id n).nodes.length = t.nodes.length := by
  unfold setn; exact List.length_set ..

theorem setn_root (t : Ttree) (id : Nat) (n : TtreeNode) : (setn t id n).root = t.root := rfl

theorem setn_keys_per (t : Ttree) (id : Nat) (n : TtreeNode) :
    (setn t id n).keys_per_tnode = t.keys_per_tnode := rfl

theorem setn_key_offs (t : Ttree) (id : Nat) (n : TtreeNode) :
    (setn t id n).key_offs = t.key_offs := rfl

theorem getn_setn_self (t : Ttree) (id : Nat) (n : TtreeNode) (h : id < t.nodes.length) :
    getn (setn t id n) id = n := by
  unfold getn setn
  rw [List.getD_eq_getElem?_getD, List.getElem?_set_eq_of_lt _ h]
  rfl

theorem getn_setn_ne (t : Ttree) (id id' : Nat) (n : TtreeNode) (h : id ≠ id') :
    getn (setn t id n) id' = getn t id' := by
  unfold getn setn
  rw [List.getD_eq_getElem?_getD, List.getElem?_set_ne h, ← List.getD_eq_getElem?_getD]

theorem nodes_getD_setn_ne (t : Ttree) (id id' : Nat) (n : TtreeNode) (h : id' ≠ id) :
    (setn t id n).nodes.getD id' none = t.nodes.getD id' none := by
  unfold setn
  rw [List.getD_eq_getElem?_getD, List.getElem?_set_ne (by omega), ← List.getD_eq_getElem?_getD]

theorem updn_eq (t : Ttree) (id : Nat) (f : TtreeNode → TtreeNode) :
    updn t id f = setn t id (f (getn t id)) := rfl

theorem cmpSorted_iff_chain (cmp : Cmp) : ∀ l : List Key,
    cmpSorted cmp l ↔ l.Chain' (fun a b => cmp a b < 0) := by
  intro l
  match l with
  | [] => simp [cmpSorted]
  | [a] => simp [cmpSorted]
  | a :: b :: rest =>
    rw [List.chain'_cons]
    show cmp a b < 0 ∧ cmpSorted cmp (b :: rest) ↔ _
    rw [cmpSorted_iff_chain cmp (b :: rest)]

theorem cmpSorted_tail (cmp : Cmp) (a : Key) (l : List Key)
    (h : cmpSorted cmp (a :: l)) : cmpSorted cmp l := by
  match l with
  | [] => trivial
  | b :: rest => exact h.2

theorem cmpSorted_append_right (cmp : Cmp) : ∀ (A B : List Key),
    cmpSorted cmp (A ++ B) → cmpSorted cmp B := by
  intro A
  induction A with
  | nil => intro B h; exact h
  | cons a A ih => intro B h; exact ih B (cmpSorted_tail cmp a (A ++ B) h)

theorem cmpSorted_take (cmp : Cmp) : ∀ (m : Nat) (l : List Key),
    cmpSorted cmp l → cmpSorted cmp (l.take m) := by
  intro m
  induction m with
  | zero => intro l _; trivial
  | succ m ih =>
    intro l h
    match l with
    | [] => trivial
    | [a] =>
      rw [List.take_succ_cons, List.take_nil]
      trivial
    | a :: b :: rest =>
      rw [List.take_succ_cons]
      match m with
      | 0 => trivial
      | m + 1 =>
        rw [List.take_succ_cons]
        exact ⟨h.1, by
          have := ih (b :: rest) (cmpSorted_tail cmp a (b :: rest) h)
          rwa [List.take_succ_cons] at this⟩

theorem cmpSorted_drop (cmp : Cmp) : ∀ (m : Nat) (l : List Key),
    cmpSorted cmp l → cmpSorted cmp (l.drop m) := by
  intro m
  induction m with
  | zero => intro l h; exact h
  | succ m ih =>
    intro l h
    match l with
    | [] => trivial
    | a :: rest => exact ih rest (cmpSorted_tail cmp a rest h)

theorem cmpSorted_cons_of (cmp : Cmp) (x : Key) (l : List Key)
    (hs : cmpSorted cmp l) (hx : ∀ y ∈ l, cmp x y < 0) : cmpSorted cmp (x :: l) := by
  match l with
  | [] => trivial
  | b :: rest => exact ⟨hx b (List.mem_cons_self b rest), hs⟩

theorem cmpSorted_append_singleton (cmp : Cmp) (y : Key) : ∀ (l : List Key),
    cmpSorted cmp l → (∀ x ∈ l, cmp x y < 0) → cmpSorted cmp (l ++ [y]) := by
  intro l
  induction l with
  | nil => intro _ _; trivial
  | cons a l ih =>
    intro hs hx
    match l with
    | [] => exact ⟨hx a (List.mem_cons_self a []), trivial⟩
    | b :: rest =>
      show cmp a b < 0 ∧ cmpSorted cmp ((b :: rest) ++ [y])
      exact ⟨hs.1, ih (cmpSorted_tail cmp a (b :: rest) hs)
        (fun x hxl => hx x (List.mem_cons_of_mem a hxl))⟩

theorem getD_take (l : List Key) (m j : Nat) (hj : j < m) :
    (l.take m).getD j 0 = l.getD j 0 := by
  by_cases h : j < l.length
  · rw [List.getD_eq_getElem _ _ (by rw [List.length_take]; omega),
      List.getD_eq_getElem _ _ h, List.getElem_take]
  · rw [List.getD_eq_default _ _ (by rw [List.length_take]; omega),
      List.getD_eq_default _ _ (by omega)]

theorem getD_drop (l : List Key) (m j : Nat) :
    (l.drop m).getD j 0 = l.getD (m + j) 0 := by
  by_cases h : m + j < l.length
  · rw [List.getD_eq_getElem _ _ (by rw [List.length_drop]; omega),
      List.getD_eq_getElem _ _ h, List.getElem_drop]
  · rw [List.getD_eq_default _ _ (by rw [List.length_drop]; omega),
      List.getD_eq_default _ _ (by omega)]

theorem windowKeys_one (n : TtreeNode) (h : tnode_num_keys n = 1) :
    windowKeys n = [tnode_key_min n] := by
  apply windowKeys_ext
  · rw [h]; rfl
  · intro j hj
    match j, hj with
    | 0, _ =>
      rw [Nat.cast_zero, add_zero, List.getD_cons_zero]
      rfl

theorem getn_fix_root (t : Ttree) (nid id : Nat) :
    getn (rebalance_fix_root t nid) id = getn t id := by
  unfold rebalance_fix_root
  split
  · rfl
  · split <;> rfl

theorem updn_nodes_length (t : Ttree) (id : Nat) (f : TtreeNode → TtreeNode) :
    (updn t id f).nodes.length = t.nodes.length := by
  rw [updn_eq]; exact setn_nodes_length ..

theorem getn_updn_self (t : Ttree) (id : Nat) (f : TtreeNode → TtreeNode)
    (h : id < t.nodes.length) : getn (updn t id f) id = f (getn t id) := by
  rw [updn_eq]; exact getn_setn_self _ _ _ h

theorem getn_updn_ne (t : Ttree) (id id' : Nat) (f : TtreeNode → TtreeNode)
    (h : id ≠ id') : getn (updn t id f) id' = getn t id' := by
  rw [updn_eq]; exact getn_setn_ne _ _ _ _ h

/-- What the common tail of the key migration does to the arena: the new
subtree root receives `nkeys - 1` donor keys at `offs`, the donor collapses
to the single key from its `max_idx` slot stored at the canonical first
index, and no other node changes. -/
theorem migrate_finish_getn (t : Ttree) (nid did : Nat) (offs nkeys : Int)
    (cursor : Option TtreeCursor) (hnd : nid ≠ did)
    (hvn : nid < t.nodes.length) (hvd : did < t.nodes.length) :
    (migrate_finish t nid did offs nkeys cursor).2 = cursor ∧
    getn (migrate_finish t nid did offs nkeys cursor).1 nid =
      { getn t nid with
          keys := copyRange (getn t nid).keys offs (getn t did).keys
                    (getn t did).min_idx (nkeys - 1).toNat } ∧
    getn (migrate_finish t nid did offs nkeys cursor).1 did =
      { getn t did with
          keys := lset (getn t did).keys (first_tnode_idx t)
                    (lget (getn t did).keys (getn t did).max_idx),
          min_idx := first_tnode_idx t, max_idx := first_tnode_idx t } ∧
    (∀ j, j ≠ nid → j ≠ did → getn (migrate_finish t nid did offs nkeys cursor).1 j = getn t j) := by
  simp only [migrate_finish]
  refine ⟨trivial, ?_, ?_, ?_⟩
  · rw [getn_updn_ne _ _ _ _ (Ne.symm hnd), getn_updn_self _ _ _ hvn]
  · rw [getn_updn_self _ _ _ (by rw [updn_nodes_length]; exact hvd),
      getn_updn_ne _ _ _ _ hnd]
    rfl
  · intro j hj1 hj2
    rw [getn_updn_ne _ _ _ _ (Ne.symm hj2), getn_updn_ne _ _ _ _ (Ne.symm hj1)]

/-- The tree component of `migrate_finish` does not depend on the cursor. -/
theorem migrate_finish_fst (t : Ttree) (nid did : Nat) (offs nkeys : Int)
    (cursor : Option TtreeCursor) :
    (migrate_finish t nid did offs nkeys cursor).1 =
    (migrate_finish t nid did offs nkeys none).1 := rfl

/-- The right-donor branch of the key migration: the root takes the donor's
minimum `nkeys - 1` keys after its own key, the donor keeps its maximum at
the canonical index. -/
theorem migrate_right_case (t1 res : Ttree) (T rId : Nat)
    (cursorX : Option TtreeCursor)
    (hres : res = (migrate_finish (updn t1 T (fun p =>
        { p with min_idx := 0, max_idx := tnode_num_keys (getn t1 rId) - 1,
                 keys := lset p.keys 0 (lget p.keys p.min_idx) })) T rId 1
        (tnode_num_keys (getn t1 rId)) cursorX).1)
    (hvT : T < t1.nodes.length) (hvR : rId < t1.nodes.length) (hne2 : T ≠ rId)
    (hM : 2 ≤ t1.keys_per_tnode)
    (hlenT : ((getn t1 T).keys.length : Int) = t1.keys_per_tnode)
    (hlenR : ((getn t1 rId).keys.length : Int) = t1.keys_per_tnode)
    (hwR0 : 0 ≤ (getn t1 rId).min_idx)
    (hwR1 : (getn t1 rId).min_idx ≤ (getn t1 rId).max_idx)
    (hwRM : (getn t1 rId).max_idx < t1.keys_per_tnode) :
    (∀ j, j ≠ T → j ≠ rId → getn res j = getn t1 j) ∧
    (getn res rId).min_idx = t1.keys_per_tnode / 2 - 1 ∧
    (getn res rId).max_idx = t1.keys_per_tnode / 2 - 1 ∧
    tnode_num_keys (getn res T) = tnode_num_keys (getn t1 rId) ∧
    windowKeys (getn res T) = tnode_key_min (getn t1 T) ::
      (windowKeys (getn t1 rId)).take ((tnode_num_keys (getn t1 rId)).toNat - 1) ∧
    windowKeys (getn res rId) =
      (windowKeys (getn t1 rId)).drop ((tnode_num_keys (getn t1 rId)).toNat - 1) := by
  have hknum : tnode_num_keys (getn t1 rId) =
      (getn t1 rId).max_idx - (getn t1 rId).min_idx + 1 := rfl
  have hWlen : (windowKeys (getn t1 rId)).length = (tnode_num_keys (getn t1 rId)).toNat :=
    length_windowKeys _
  obtain ⟨-, hfT, hfD, hfO⟩ := migrate_finish_getn (updn t1 T (fun p =>
      { p with min_idx := 0, max_idx := tnode_num_keys (getn t1 rId) - 1,
               keys := lset p.keys 0 (lget p.keys p.min_idx) })) T rId 1
      (tnode_num_keys (getn t1 rId)) cursorX hne2
      (by rw [updn_nodes_length]; exact hvT) (by rw [updn_nodes_length]; exact hvR)
  rw [getn_updn_self _ _ _ hvT] at hfT
  rw [getn_updn_ne _ _ _ _ hne2] at hfT hfD
  rw [← hres] at hfT hfD hfO
  have hfti : first_tnode_idx (updn t1 T (fun p =>
      { p with min_idx := 0, max_idx := tnode_num_keys (getn t1 rId) - 1,
               keys := lset p.keys 0 (lget p.keys p.min_idx) })) =
      t1.keys_per_tnode / 2 - 1 := rfl
  rw [hfti] at hfD
  refine ⟨fun j hj1 hj2 => by
      rw [hfO j hj1 hj2, getn_updn_ne _ _ _ _ (Ne.symm hj1)],
    by rw [hfD], by rw [hfD],
    by
      rw [hfT]
      show tnode_num_keys (getn t1 rId) - 1 - 0 + 1 = tnode_num_keys (getn t1 rId)
      omega, ?_, ?_⟩
  · rw [hfT]
    apply windowKeys_ext
    · show (tnode_num_keys (getn t1 rId) - 1 - 0 + 1).toNat = _
      rw [List.length_cons, List.length_take, hWlen]
      omega
    · intro j hj
      rw [List.length_cons, List.length_take, hWlen] at hj
      have hcr := lget_copyRange (tnode_num_keys (getn t1 rId) - 1).toNat
        (lset (getn t1 T).keys 0 (lget (getn t1 T).keys (getn t1 T).min_idx))
        (getn t1 rId).keys 1 (getn t1 rId).min_idx (by omega)
        (by rw [length_lset]; omega)
      show lget (copyRange (lset (getn t1 T).keys 0 (lget (getn t1 T).keys
        (getn t1 T).min_idx)) 1 (getn t1 rId).keys (getn t1 rId).min_idx
        (tnode_num_keys (getn t1 rId) - 1).toNat) (0 + (j : Int)) = _
      match j with
      | 0 =>
        rw [hcr, if_neg (by omega), List.getD_cons_zero]
        show lget _ 0 = _
        rw [lget_lset_eq _ _ _ (by omega) (by omega)]
        rfl
      | j + 1 =>
        rw [hcr, if_pos (by push_cast; omega), List.getD_cons_succ,
          getD_take _ _ _ (by omega), getD_windowKeys _ _ (by omega)]
        congr 1
        push_cast
        omega
  · rw [hfD]
    apply windowKeys_ext
    · show (t1.keys_per_tnode / 2 - 1 - (t1.keys_per_tnode / 2 - 1) + 1).toNat = _
      rw [List.length_drop, hWlen]
      omega
    · intro j hj
      rw [List.length_drop, hWlen] at hj
      match j, hj with
      | 0, _ =>
        show lget (lset (getn t1 rId).keys (t1.keys_per_tnode / 2 - 1)
          (lget (getn t1 rId).keys (getn t1 rId).max_idx))
          (t1.keys_per_tnode / 2 - 1 + ((0 : Nat) : Int)) = _
        rw [Nat.cast_zero, add_zero, lget_lset_eq _ _ _ (by omega) (by omega),
          getD_drop, Nat.add_zero, getD_windowKeys _ _ (by omega)]
        congr 1
        omega
      | j + 1, hj => exact absurd hj (by omega)

/-- The left-donor branch of the key migration on the `goto no_cursor` path
(NULL cursor, ttree.c:393): the donor-window adjustment
`n->max_idx = n->min_idx++` is skipped, so the root takes the donor's minimum
`nkeys - 1` keys before its own key and the donor keeps its maximum key at
the canonical index. -/
theorem migrate_left_none_case (t1 res : Ttree) (T lId : Nat)
    (hres : res = (migrate_finish (updn t1 T (fun p =>
        { p with keys := lset p.keys (t1.keys_per_tnode - 1) (lget p.keys p.min_idx),
                 min_idx := t1.keys_per_tnode - tnode_num_keys (getn t1 lId),
                 max_idx := t1.keys_per_tnode - 1 })) T lId
        (t1.keys_per_tnode - tnode_num_keys (getn t1 lId))
        (tnode_num_keys (getn t1 lId)) none).1)
    (hvT : T < t1.nodes.length) (hvL : lId < t1.nodes.length) (hne1 : T ≠ lId)
    (hM : 2 ≤ t1.keys_per_tnode)
    (hlenT : ((getn t1 T).keys.length : Int) = t1.keys_per_tnode)
    (hlenL : ((getn t1 lId).keys.length : Int) = t1.keys_per_tnode)
    (hwL0 : 0 ≤ (getn t1 lId).min_idx)
    (hwL1 : (getn t1 lId).min_idx ≤ (getn t1 lId).max_idx)
    (hwLM : (getn t1 lId).max_idx < t1.keys_per_tnode) :
    (∀ j, j ≠ T → j ≠ lId → getn res j = getn t1 j) ∧
    (getn res lId).min_idx = t1.keys_per_tnode / 2 - 1 ∧
    (getn res lId).max_idx = t1.keys_per_tnode / 2 - 1 ∧
    tnode_num_keys (getn res T) = tnode_num_keys (getn t1 lId) ∧
    windowKeys (getn res T) =
      (windowKeys (getn t1 lId)).take ((tnode_num_keys (getn t1 lId)).toNat - 1) ++
        [tnode_key_min (getn t1 T)] ∧
    windowKeys (getn res lId) =
      (windowKeys (getn t1 lId)).drop ((tnode_num_keys (getn t1 lId)).toNat - 1) := by
  have hknum : tnode_num_keys (getn t1 lId) =
      (getn t1 lId).max_idx - (getn t1 lId).min_idx + 1 := rfl
  have hWlen : (windowKeys (getn t1 lId)).length = (tnode_num_keys (getn t1 lId)).toNat :=
    length_windowKeys _
  obtain ⟨-, hfT, hfD, hfO⟩ := migrate_finish_getn (updn t1 T (fun p =>
      { p with keys := lset p.keys (t1.keys_per_tnode - 1) (lget p.keys p.min_idx),
               min_idx := t1.keys_per_tnode - tnode_num_keys (getn t1 lId),
               max_idx := t1.keys_per_tnode - 1 })) T lId
      (t1.keys_per_tnode - tnode_num_keys (getn t1 lId))
      (tnode_num_keys (getn t1 lId)) none hne1
      (by rw [updn_nodes_length]; exact hvT) (by rw [updn_nodes_length]; exact hvL)
  rw [getn_updn_self _ _ _ hvT] at hfT
  rw [getn_updn_ne _ _ _ _ hne1] at hfT hfD
  rw [← hres] at hfT hfD hfO
  have hfti : first_tnode_idx (updn t1 T (fun p =>
      { p with keys := lset p.keys (t1.keys_per_tnode - 1) (lget p.keys p.min_idx),
               min_idx := t1.keys_per_tnode - tnode_num_keys (getn t1 lId),
               max_idx := t1.keys_per_tnode - 1 })) = t1.keys_per_tnode / 2 - 1 := rfl
  rw [hfti] at hfD
  refine ⟨fun j hj1 hj2 => by
      rw [hfO j hj1 hj2, getn_updn_ne _ _ _ _ (Ne.symm hj1)],
    by rw [hfD], by rw [hfD],
    by
      rw [hfT]
      show t1.keys_per_tnode - 1 -
        (t1.keys_per_tnode - tnode_num_keys (getn t1 lId)) + 1 = tnode_num_keys (getn t1 lId)
      omega, ?_, ?_⟩
  · rw [hfT]
    apply windowKeys_ext
    · show (t1.keys_per_tnode - 1 -
        (t1.keys_per_tnode - tnode_num_keys (getn t1 lId)) + 1).toNat = _
      rw [List.length_append, List.length_take, List.length_cons, List.length_nil, hWlen]
      omega
    · intro j hj
      rw [List.length_append, List.length_take, List.length_cons, List.length_nil, hWlen] at hj
      have hcr := lget_copyRange (tnode_num_keys (getn t1 lId) - 1).toNat
        (lset (getn t1 T).keys (t1.keys_per_tnode - 1)
          (lget (getn t1 T).keys (getn t1 T).min_idx))
        (getn t1 lId).keys (t1.keys_per_tnode - tnode_num_keys (getn t1 lId))
        (getn t1 lId).min_idx (by omega) (by rw [length_lset]; omega)
      show lget (copyRange (lset (getn t1 T).keys (t1.keys_per_tnode - 1)
        (lget (getn t1 T).keys (getn t1 T).min_idx))
        (t1.keys_per_tnode - tnode_num_keys (getn t1 lId)) (getn t1 lId).keys
        (getn t1 lId).min_idx (tnode_num_keys (getn t1 lId) - 1).toNat)
        (t1.keys_per_tnode - tnode_num_keys (getn t1 lId) + (j : Int)) = _
      by_cases hjl : j < (tnode_num_keys (getn t1 lId)).toNat - 1
      · rw [hcr, if_pos (by push_cast; omega),
          List.getD_append _ _ _ _ (by rw [List.length_take, hWlen]; omega),
          getD_take _ _ _ (by omega), getD_windowKeys _ _ (by omega)]
        congr 1
        push_cast
        omega
      · have hidx : t1.keys_per_tnode - tnode_num_keys (getn t1 lId) + (j : Int) =
            t1.keys_per_tnode - 1 := by omega
        rw [hcr, if_neg (by push_cast; omega), hidx,
          lget_lset_eq _ _ _ (by omega) (by omega),
          List.getD_append_right _ _ _ _ (by rw [List.length_take, hWlen]; omega)]
        have hz : j - ((windowKeys (getn t1 lId)).take
            ((tnode_num_keys (getn t1 lId)).toNat - 1)).length = 0 := by
          rw [List.length_take, hWlen]; omega
        rw [hz, List.getD_cons_zero]
        rfl
  · rw [hfD]
    apply windowKeys_ext
    · show (t1.keys_per_tnode / 2 - 1 - (t1.keys_per_tnode / 2 - 1) + 1).toNat = _
      rw [List.length_drop, hWlen]
      omega
    · intro j hj
      rw [List.length_drop, hWlen] at hj
      match j, hj with
      | 0, _ =>
        show lget (lset (getn t1 lId).keys (t1.keys_per_tnode / 2 - 1)
          (lget (getn t1 lId).keys (getn t1 lId).max_idx))
          (t1.keys_per_tnode / 2 - 1 + ((0 : Nat) : Int)) = _
        rw [Nat.cast_zero, add_zero, lget_lset_eq _ _ _ (by omega) (by omega),
          getD_drop, Nat.add_zero, getD_windowKeys _ _ (by omega)]
        congr 1
        omega
      | j + 1, hj => exact absurd hj (by omega)

/-- The left-donor branch of the key migration with a live cursor: the donor
window is first shrunk to its minimum key (`n->max_idx = n->min_idx++`,
ttree.c:406), so the root takes the donor's keys except the minimum before
its own key and the donor keeps its minimum key at the canonical index. -/
theorem migrate_left_some_case (t1 res : Ttree) (T lId : Nat)
    (hres : res = (migrate_finish (updn (updn t1 T (fun p =>
        { p with keys := lset p.keys (t1.keys_per_tnode - 1) (lget p.keys p.min_idx),
                 min_idx := t1.keys_per_tnode - tnode_num_keys (getn t1 lId),
                 max_idx := t1.keys_per_tnode - 1 })) lId
        (fun d => { d with max_idx := d.min_idx, min_idx := d.min_idx + 1 })) T lId
        (t1.keys_per_tnode - tnode_num_keys (getn t1 lId))
        (tnode_num_keys (getn t1 lId)) none).1)
    (hvT : T < t1.nodes.length) (hvL : lId < t1.nodes.length) (hne1 : T ≠ lId)
    (hM : 2 ≤ t1.keys_per_tnode)
    (hlenT : ((getn t1 T).keys.length : Int) = t1.keys_per_tnode)
    (hlenL : ((getn t1 lId).keys.length : Int) = t1.keys_per_tnode)
    (hwL0 : 0 ≤ (getn t1 lId).min_idx)
    (hwL1 : (getn t1 lId).min_idx ≤ (getn t1 lId).max_idx)
    (hwLM : (getn t1 lId).max_idx < t1.keys_per_tnode) :
    (∀ j, j ≠ T → j ≠ lId → getn res j = getn t1 j) ∧
    (getn res lId).min_idx = t1.keys_per_tnode / 2 - 1 ∧
    (getn res lId).max_idx = t1.keys_per_tnode / 2 - 1 ∧
    tnode_num_keys (getn res T) = tnode_num_keys (getn t1 lId) ∧
    windowKeys (getn res T) =
      (windowKeys (getn t1 lId)).drop 1 ++ [tnode_key_min (getn t1 T)] ∧
    windowKeys (getn res lId) = (windowKeys (getn t1 lId)).take 1 := by
  have hknum : tnode_num_keys (getn t1 lId) =
      (getn t1 lId).max_idx - (getn t1 lId).min_idx + 1 := rfl
  have hWlen : (windowKeys (getn t1 lId)).length = (tnode_num_keys (getn t1 lId)).toNat :=
    length_windowKeys _
  have hvL2 : lId < (updn t1 T (fun p =>
      { p with keys := lset p.keys (t1.keys_per_tnode - 1) (lget p.keys p.min_idx),
               min_idx := t1.keys_per_tnode - tnode_num_keys (getn t1 lId),
               max_idx := t1.keys_per_tnode - 1 })).nodes.length := by
    rw [updn_nodes_length]; exact hvL
  obtain ⟨-, hfT, hfD, hfO⟩ := migrate_finish_getn (updn (updn t1 T (fun p =>
      { p with keys := lset p.keys (t1.keys_per_tnode - 1) (lget p.keys p.min_idx),
               min_idx := t1.keys_per_tnode - tnode_num_keys (getn t1 lId),
               max_idx := t1.keys_per_tnode - 1 })) lId
      (fun d => { d with max_idx := d.min_idx, min_idx := d.min_idx + 1 })) T lId
      (t1.keys_per_tnode - tnode_num_keys (getn t1 lId))
      (tnode_num_keys (getn t1 lId)) none hne1
      (by rw [updn_nodes_length, updn_nodes_length]; exact hvT)
      (by rw [updn_nodes_length, updn_nodes_length]; exact hvL)
  rw [getn_updn_self _ _ _ hvL2] at hfT hfD
  rw [getn_updn_ne _ _ _ _ hne1] at hfT hfD
  rw [getn_updn_ne _ _ _ _ (Ne.symm hne1)] at hfT
  rw [getn_updn_self _ _ _ hvT] at hfT
  rw [← hres] at hfT hfD hfO
  have hfti : first_tnode_idx (updn (updn t1 T (fun p =>
      { p with keys := lset p.keys (t1.keys_per_tnode - 1) (lget p.keys p.min_idx),
               min_idx := t1.keys_per_tnode - tnode_num_keys (getn t1 lId),
               max_idx := t1.keys_per_tnode - 1 })) lId
      (fun d => { d with max_idx := d.min_idx, min_idx := d.min_idx + 1 })) =
      t1.keys_per_tnode / 2 - 1 := rfl
  rw [hfti] at hfD
  refine ⟨fun j hj1 hj2 => by
      rw [hfO j hj1 hj2, getn_updn_ne _ _ _ _ (Ne.symm hj2),
        getn_updn_ne _ _ _ _ (Ne.symm hj1)],
    by rw [hfD], by rw [hfD],
    by
      rw [hfT]
      show t1.keys_per_tnode - 1 -
        (t1.keys_per_tnode - tnode_num_keys (getn t1 lId)) + 1 = tnode_num_keys (getn t1 lId)
      omega, ?_, ?_⟩
  · rw [hfT]
    apply windowKeys_ext
    · show (t1.keys_per_tnode - 1 -
        (t1.keys_per_tnode - tnode_num_keys (getn t1 lId)) + 1).toNat = _
      rw [List.length_append, List.length_drop, List.length_cons, List.length_nil, hWlen]
      omega
    · intro j hj
      rw [List.length_append, List.length_drop, List.length_cons, List.length_nil, hWlen] at hj
      have hcr := lget_copyRange (tnode_num_keys (getn t1 lId) - 1).toNat
        (lset (getn t1 T).keys (t1.keys_per_tnode - 1)
          (lget (getn t1 T).keys (getn t1 T).min_idx))
        (getn t1 lId).keys (t1.keys_per_tnode - tnode_num_keys (getn t1 lId))
        ((getn t1 lId).min_idx + 1) (by omega) (by rw [length_lset]; omega)
      show lget (copyRange (lset (getn t1 T).keys (t1.keys_per_tnode - 1)
        (lget (getn t1 T).keys (getn t1 T).min_idx))
        (t1.keys_per_tnode - tnode_num_keys (getn t1 lId)) (getn t1 lId).keys
        ((getn t1 lId).min_idx + 1) (tnode_num_keys (getn t1 lId) - 1).toNat)
        (t1.keys_per_tnode - tnode_num_keys (getn t1 lId) + (j : Int)) = _
      by_cases hjl : j < (tnode_num_keys (getn t1 lId)).toNat - 1
      · rw [hcr, if_pos (by push_cast; omega),
          List.getD_append _ _ _ _ (by rw [List.length_drop, hWlen]; omega),
          getD_drop, getD_windowKeys _ _ (by omega)]
        congr 1
        push_cast
        omega
      · have hidx : t1.keys_per_tnode - tnode_num_keys (getn t1 lId) + (j : Int) =
            t1.keys_per_tnode - 1 := by omega
        rw [hcr, if_neg (by push_cast; omega), hidx,
          lget_lset_eq _ _ _ (by omega) (by omega),
          List.getD_append_right _ _ _ _ (by rw [List.length_drop, hWlen]; omega)]
        have hz : j - ((windowKeys (getn t1 lId)).drop 1).length = 0 := by
          rw [List.length_drop, hWlen]; omega
        rw [hz, List.getD_cons_zero]
        rfl
  · rw [hfD]
    apply windowKeys_ext
    · show (t1.keys_per_tnode / 2 - 1 - (t1.keys_per_tnode / 2 - 1) + 1).toNat = _
      rw [List.length_take, hWlen]
      omega
    · intro j hj
      rw [List.length_take, hWlen] at hj
      match j, hj with
      | 0, _ =>
        show lget (lset (getn t1 lId).keys (t1.keys_per_tnode / 2 - 1)
          (lget (getn t1 lId).keys (getn t1 lId).min_idx))
          (t1.keys_per_tnode / 2 - 1 + ((0 : Nat) : Int)) = _
        rw [Nat.cast_zero, add_zero, lget_lset_eq _ _ _ (by omega) (by omega),
          getD_take _ _ _ (by omega), getD_windowKeys _ _ (by omega)]
        congr 1
        omega
      | j + 1, hj => exact absurd hj (by omega)

/-- Full specification of the T*-tree key migration (ttree.c `rebalance`,
lines 347–414) on a state where the guard holds: the child with more keys
(the right child on a tie) donates all but one of its keys to the
single-key subtree root; afterwards the donor holds exactly one key at the
canonical index `keys_per_tnode/2 - 1`, the other child is untouched, the
root holds as many keys as the donor held, key content is preserved, and the
root's window is sorted under the comparator.  The conclusions hold on every
path, including the `goto no_cursor` path taken with a NULL cursor. -/
theorem migrate_spec (t1 : Ttree) (T lId rId donor other : Nat)
    (cursor : Option TtreeCursor) (cmp : Cmp)
    (hL : (getn t1 T).left = some lId) (hR : (getn t1 T).right = some rId)
    (hT1 : tnode_num_keys (getn t1 T) = 1)
    (hhl : is_half_leaf (getn t1 lId)) (hhr : is_half_leaf (getn t1 rId))
    (hM : 2 ≤ t1.keys_per_tnode)
    (hvT : T < t1.nodes.length) (hvL : lId < t1.nodes.length) (hvR : rId < t1.nodes.length)
    (hne1 : T ≠ lId) (hne2 : T ≠ rId) (hne3 : lId ≠ rId)
    (hlenT : ((getn t1 T).keys.length : Int) = t1.keys_per_tnode)
    (hlenL : ((getn t1 lId).keys.length : Int) = t1.keys_per_tnode)
    (hlenR : ((getn t1 rId).keys.length : Int) = t1.keys_per_tnode)
    (hwT0 : 0 ≤ (getn t1 T).min_idx) (hwTM : (getn t1 T).max_idx < t1.keys_per_tnode)
    (hwL0 : 0 ≤ (getn t1 lId).min_idx)
    (hwL1 : (getn t1 lId).min_idx ≤ (getn t1 lId).max_idx)
    (hwLM : (getn t1 lId).max_idx < t1.keys_per_tnode)
    (hwR0 : 0 ≤ (getn t1 rId).min_idx)
    (hwR1 : (getn t1 rId).min_idx ≤ (getn t1 rId).max_idx)
    (hwRM : (getn t1 rId).max_idx < t1.keys_per_tnode)
    (hdonor : donor =
      if tnode_num_keys (getn t1 rId) ≥ tnode_num_keys (getn t1 lId) then rId else lId)
    (hother : other =
      if tnode_num_keys (getn t1 rId) ≥ tnode_num_keys (getn t1 lId) then lId else rId)
    (hsortL : cmpSorted cmp (windowKeys (getn t1 lId)))
    (hsortR : cmpSorted cmp (windowKeys (getn t1 rId)))
    (hlt : ∀ x ∈ windowKeys (getn t1 lId), cmp x (tnode_key_min (getn t1 T)) < 0)
    (hgt : ∀ y ∈ windowKeys (getn t1 rId), cmp (tnode_key_min (getn t1 T)) y < 0) :
    getn (rebalance_migrate t1 T cursor).1 other = getn t1 other ∧
    (getn (rebalance_migrate t1 T cursor).1 donor).min_idx = t1.keys_per_tnode / 2 - 1 ∧
    (getn (rebalance_migrate t1 T cursor).1 donor).max_idx = t1.keys_per_tnode / 2 - 1 ∧
    tnode_num_keys (getn (rebalance_migrate t1 T cursor).1 T) =
      tnode_num_keys (getn t1 donor) ∧
    (windowKeys (getn (rebalance_migrate t1 T cursor).1 T) ++
      windowKeys (getn (rebalance_migrate t1 T cursor).1 donor)).Perm
      (tnode_key_min (getn t1 T) :: windowKeys (getn t1 donor)) ∧
    cmpSorted cmp (windowKeys (getn (rebalance_migrate t1 T cursor).1 T)) := by
  subst hdonor hother
  by_cases hcase : tnode_num_keys (getn t1 rId) ≥ tnode_num_keys (getn t1 lId)
  · simp only [rebalance_migrate, hL, hR, Option.getD_some]
    rw [if_pos ⟨hT1, hhl, hhr⟩, if_pos hcase, if_pos hcase, if_pos hcase,
      migrate_finish_fst]
    obtain ⟨hfr, hdmin, hdmax, hnum, hwT, hwD⟩ :=
      migrate_right_case t1 _ T rId none rfl hvT hvR hne2 hM hlenT hlenR hwR0 hwR1 hwRM
    refine ⟨hfr lId (Ne.symm hne1) hne3, hdmin, hdmax, hnum, ?_, ?_⟩
    · rw [hwT, hwD, List.cons_append, List.take_append_drop]
    · rw [hwT]
      exact cmpSorted_cons_of cmp _ _ (cmpSorted_take cmp _ _ hsortR)
        (fun y hy => hgt y (List.take_subset _ _ hy))
  · rcases cursor with _ | c
    · simp only [rebalance_migrate, hL, hR, Option.getD_some]
      rw [if_pos ⟨hT1, hhl, hhr⟩, if_neg hcase, if_neg hcase, if_neg hcase]
      obtain ⟨hfr, hdmin, hdmax, hnum, hwT, hwD⟩ :=
        migrate_left_none_case t1 _ T lId rfl hvT hvL hne1 hM hlenT hlenL hwL0 hwL1 hwLM
      refine ⟨hfr rId (Ne.symm hne2) (Ne.symm hne3), hdmin, hdmax, hnum, ?_, ?_⟩
      · rw [hwT, hwD, List.append_assoc, List.singleton_append]
        have h1 := @List.perm_middle Key (tnode_key_min (getn t1 T))
          ((windowKeys (getn t1 lId)).take ((tnode_num_keys (getn t1 lId)).toNat - 1))
          ((windowKeys (getn t1 lId)).drop ((tnode_num_keys (getn t1 lId)).toNat - 1))
        rwa [List.take_append_drop] at h1
      · rw [hwT]
        exact cmpSorted_append_singleton cmp _ _ (cmpSorted_take cmp _ _ hsortL)
          (fun x hx => hlt x (List.take_subset _ _ hx))
    · simp only [rebalance_migrate, hL, hR, Option.getD_some]
      rw [if_pos ⟨hT1, hhl, hhr⟩, if_neg hcase, if_neg hcase, if_neg hcase,
        migrate_finish_fst]
      obtain ⟨hfr, hdmin, hdmax, hnum, hwT, hwD⟩ :=
        migrate_left_some_case t1 _ T lId rfl hvT hvL hne1 hM hlenT hlenL hwL0 hwL1 hwLM
      refine ⟨hfr rId (Ne.symm hne2) (Ne.symm hne3), hdmin, hdmax, hnum, ?_, ?_⟩
      · rw [hwT, hwD, List.append_assoc, List.singleton_append]
        have h1 := @List.perm_middle Key (tnode_key_min (getn t1 T))
          ((windowKeys (getn t1 lId)).drop 1) ((windowKeys (getn t1 lId)).take 1)
        have h2 := @List.perm_append_comm Key ((windowKeys (getn t1 lId)).drop 1)
          ((windowKeys (getn t1 lId)).take 1)
        rw [List.take_append_drop] at h2
        exact h1.trans (h2.cons _)
      · rw [hwT]
        exact cmpSorted_append_singleton cmp _ _ (cmpSorted_drop cmp _ _ hsortL)
          (fun x hx => hlt x (List.drop_subset _ _ hx))

/-- On the low balance-factor-sum path, `rebalance` is the double rotation
followed by the key migration and the root fixup. -/
theorem rebalance_double_path (t : Ttree) (nodeId : Nat) (cursor : Option TtreeCursor)
    (hsum : ((getn t nodeId).bfc + (getn t ((sideGet (getn t nodeId)
      (opposite_side (if left_heavy (getn t nodeId) then (1 : Int) else 0))).getD 0)).bfc).natAbs
      < 2) :
    (rebalance t nodeId cursor).1 =
      rebalance_fix_root (rebalance_migrate
        (rotate_double t nodeId
          (opposite_side (if left_heavy (getn t nodeId) then (1 : Int) else 0))).1
        (rotate_double t nodeId
          (opposite_side (if left_heavy (getn t nodeId) then (1 : Int) else 0))).2
        cursor).1
      (rotate_double t nodeId
        (opposite_side (if left_heavy (getn t nodeId) then (1 : Int) else 0))).2 := by
  simp only [rebalance]
  rw [if_neg (by omega)]

/-- C3: after a double rotation performed by `rebalance` (the path whose
balance-factor sum has magnitude below 2), whenever the new subtree root `T`
holds exactly one key and both of its children are half-leaves, the child
with more keys (the right child on a tie) donates all of its keys except one:
afterwards `T` holds as many keys as the donor held, `T`'s window consists
exactly of `T`'s old key together with the donated keys (as a permutation)
in sorted order under the comparator, the donor holds exactly one key located
at the canonical middle slot `keys_per_tnode / 2 - 1`, and the other child is
untouched.  This holds on every path, including the NULL-cursor
`goto no_cursor` path. -/
theorem C3_double_rotation_key_migration
    (t : Ttree) (nodeId : Nat) (cursor : Option TtreeCursor) (cmp : Cmp)
    (t1 : Ttree) (T lId rId donor other : Nat)
    (hsum : ((getn t nodeId).bfc + (getn t ((sideGet (getn t nodeId)
      (opposite_side (if left_heavy (getn t nodeId) then (1 : Int) else 0))).getD 0)).bfc).natAbs
      < 2)
    (hrot : rotate_double t nodeId
      (opposite_side (if left_heavy (getn t nodeId) then (1 : Int) else 0)) = (t1, T))
    (hL : (getn t1 T).left = some lId) (hR : (getn t1 T).right = some rId)
    (hT1 : tnode_num_keys (getn t1 T) = 1)
    (hhl : is_half_leaf (getn t1 lId)) (hhr : is_half_leaf (getn t1 rId))
    (hM : 2 ≤ t1.keys_per_tnode)
    (hvT : T < t1.nodes.length) (hvL : lId < t1.nodes.length) (hvR : rId < t1.nodes.length)
    (hne1 : T ≠ lId) (hne2 : T ≠ rId) (hne3 : lId ≠ rId)
    (hlenT : ((getn t1 T).keys.length : Int) = t1.keys_per_tnode)
    (hlenL : ((getn t1 lId).keys.length : Int) = t1.keys_per_tnode)
    (hlenR : ((getn t1 rId).keys.length : Int) = t1.keys_per_tnode)
    (hwT0 : 0 ≤ (getn t1 T).min_idx) (hwTM : (getn t1 T).max_idx < t1.keys_per_tnode)
    (hwL0 : 0 ≤ (getn t1 lId).min_idx)
    (hwL1 : (getn t1 lId).min_idx ≤ (getn t1 lId).max_idx)
    (hwLM : (getn t1 lId).max_idx < t1.keys_per_tnode)
    (hwR0 : 0 ≤ (getn t1 rId).min_idx)
    (hwR1 : (getn t1 rId).min_idx ≤ (getn t1 rId).max_idx)
    (hwRM : (getn t1 rId).max_idx < t1.keys_per_tnode)
    (hdonor : donor =
      if tnode_num_keys (getn t1 rId) ≥ tnode_num_keys (getn t1 lId) then rId else lId)
    (hother : other =
      if tnode_num_keys (getn t1 rId) ≥ tnode_num_keys (getn t1 lId) then lId else rId)
    (hsortL : cmpSorted cmp (windowKeys (getn t1 lId)))
    (hsortR : cmpSorted cmp (windowKeys (getn t1 rId)))
    (hlt : ∀ x ∈ windowKeys (getn t1 lId), cmp x (tnode_key_min (getn t1 T)) < 0)
    (hgt : ∀ y ∈ windowKeys (getn t1 rId), cmp (tnode_key_min (getn t1 T)) y < 0) :
    getn (rebalance t nodeId cursor).1 other = getn t1 other ∧
    (getn (rebalance t nodeId cursor).1 donor).min_idx = t1.keys_per_tnode / 2 - 1 ∧
    (getn (rebalance t nodeId cursor).1 donor).max_idx = t1.keys_per_tnode / 2 - 1 ∧
    tnode_num_keys (getn (rebalance t nodeId cursor).1 T) = tnode_num_keys (getn t1 donor) ∧
    (windowKeys (getn (rebalance t nodeId cursor).1 T) ++
      windowKeys (getn (rebalance t nodeId cursor).1 donor)).Perm
      (tnode_key_min (getn t1 T) :: windowKeys (getn t1 donor)) ∧
    cmpSorted cmp (windowKeys (getn (rebalance t nodeId cursor).1 T)) := by
  have hmig := migrate_spec t1 T lId rId donor other cursor cmp hL hR hT1 hhl hhr hM
    hvT hvL hvR hne1 hne2 hne3 hlenT hlenL hlenR hwT0 hwTM hwL0 hwL1 hwLM hwR0 hwR1 hwRM
    hdonor hother hsortL hsortR hlt hgt
  have hfst : (rotate_double t nodeId
      (opposite_side (if left_heavy (getn t nodeId) then (1 : Int) else 0))).1 = t1 := by
    rw [hrot]
  have hsnd : (rotate_double t nodeId
      (opposite_side (if left_heavy (getn t nodeId) then (1 : Int) else 0))).2 = T := by
    rw [hrot]
  rw [rebalance_double_path t nodeId cursor hsum, hfst, hsnd]
  simp only [getn_fix_root]
  exact hmig

set_option maxRecDepth 1000000 in
/-- C3 witness: on the concrete left-heavy tree `c3_tree` (`M = 4`) the
double rotation makes node 2 (single key 80) the new subtree root with the
four-key node 1 as left child and the three-key node 0 as right child; the
left child donates, and afterwards node 1 holds one key at slot
`4 / 2 - 1 = 1`, node 0 is untouched, and node 2's window is a sorted
permutation of 80 together with the donated keys. -/
theorem C3_witness :
    getn (rebalance c3_tree 0 none).1 0 = getn c3_rot 0 ∧
    (getn (rebalance c3_tree 0 none).1 1).min_idx = c3_rot.keys_per_tnode / 2 - 1 ∧
    (getn (rebalance c3_tree 0 none).1 1).max_idx = c3_rot.keys_per_tnode / 2 - 1 ∧
    tnode_num_keys (getn (rebalance c3_tree 0 none).1 2) = tnode_num_keys (getn c3_rot 1) ∧
    (windowKeys (getn (rebalance c3_tree 0 none).1 2) ++
      windowKeys (getn (rebalance c3_tree 0 none).1 1)).Perm
      (tnode_key_min (getn c3_rot 2) :: windowKeys (getn c3_rot 1)) ∧
    cmpSorted intCmp (windowKeys (getn (rebalance c3_tree 0 none).1 2)) :=
  C3_double_rotation_key_migration c3_tree 0 none intCmp c3_rot 2 1 0 1 0
    (by decide) (by decide) (by decide) (by decide) (by decide) (by decide) (by decide)
    (by decide) (by decide) (by decide) (by decide) (by decide) (by decide) (by decide)
    (by decide) (by decide) (by decide) (by decide) (by decide) (by decide) (by decide)
    (by decide) (by decide) (by decide) (by decide) (by decide) (by decide) (by decide)
    (by decide) (by decide) (by decide)

set_option maxRecDepth 1000000 in
/-- C1: the Order invariant fails on the code.  Starting from an empty unique
tree with `M = 8`, the insert sequence 20..27, 10, 30, 11..18 followed by
deleting 27 and then 30 leaves the successor-chain traversal out of order:
the deletion of 30 triggers a double rotation whose left-donor key migration
runs with the NULL cursor of `ttree_delete_at_cursor`, so the
`goto no_cursor` skips the donor-window adjustment `n->max_idx = n->min_idx++`
(ttree.c:393–406) and the donor keeps its maximum key 17 instead of its
minimum 10 — the traversal starts `17, 10, 11, …` although it was strictly
increasing right before the final deletion. -/
theorem C1_order_invariant_violated_by_delete :
    c1_final.keys_are_unique = true ∧
    cmpSorted intCmp (ttree_traversal c1_pruned) ∧
    ttree_traversal c1_final =
      [17, 10, 11, 12, 13, 14, 15, 16, 18, 20, 21, 22, 23, 24, 25, 26] ∧
    ¬ cmpSorted intCmp (ttree_traversal c1_final) :=
  ⟨by decide, by decide, by decide, by decide⟩

set_option maxRecDepth 1000000 in
/-- C4: `ttree_replace` as written does not implement its contract.  The call
at ttree.c:944 is `ttree_lookup(ttree, &cursor, key)` — the local cursor's
address is passed as the search key and the key as the cursor out-parameter.
Modelling the cursor's stack address as the fresh value 999: the tree contains
the key 20, yet the lookup searches for 999, misses, and `ttree_replace`
returns the not-found error −1 leaving the tree unchanged, where the claim
requires it to return 0 and overwrite the slot holding 20. -/
theorem C4_replace_looks_up_the_cursor_address :
    (ttree_lookup intCmp c4_tree 20).1 = some 20 ∧
    ttree_replace intCmp c4_tree 999 20 21 = (-1, c4_tree) :=
  ⟨by decide, by decide⟩

set_option maxRecDepth 1000000 in
/-- C5 counterexample: with `M = 4` and window `[1, 2]` both sides have
exactly one free slot, and `increase_tnode_window` expands the window to the
LEFT (`min_idx` drops to 0, `max_idx` stays 2, the insert index shifts down),
not to the right as the claim's tie-break states. -/
theorem C5_counterexample_tie_expands_left :
    (mkTtree 4).keys_per_tnode - 1 - c5_node.max_idx = c5_node.min_idx ∧
    windowKeys c5_node = [5, 6] ∧
    (increase_tnode_window (mkTtree 4) c5_node 2).1.max_idx = c5_node.max_idx ∧
    (increase_tnode_window (mkTtree 4) c5_node 2).1.min_idx = c5_node.min_idx - 1 ∧
    (increase_tnode_window (mkTtree 4) c5_node 2).2 = 1 :=
  ⟨by decide, by decide, by decide, by decide, by decide⟩

set_option maxRecDepth 1000000 in
/-- C2 counterexample: in `c2_pre` the bound node (index 1) is full and has a
successor (the root, index 0) with a free slot, but no right child.  The
claim says the displaced maximum 570 is inserted at the successor's minimum
position; the code instead tests `!n->successor || !n->right`
(ttree.c:754) and creates a new leaf (index 3) holding 570 as the right
child of the bound node, leaving the successor's window untouched. -/
theorem C2_counterexample_successor_with_room_skipped :
    tnode_is_full c2_pre (getn c2_pre 1) ∧
    c2_cursor.tnode = some 1 ∧ c2_cursor.side = TNODE_BOUND ∧
    c2_cursor.state = CURSOR_PENDING ∧
    (getn c2_pre 1).successor = some 0 ∧
    ¬ tnode_is_full c2_pre (getn c2_pre 0) ∧
    (getn c2_pre 1).right = none ∧
    tnode_key_max (getn c2_pre 1) = 570 ∧
    windowKeys (getn c2_post 0) = windowKeys (getn c2_pre 0) ∧
    c2_post.nodes.length = c2_pre.nodes.length + 1 ∧
    (getn c2_post 1).right = some 3 ∧
    windowKeys (getn c2_post 3) = [570] :=
  ⟨by decide, by decide, by decide, by decide, by decide, by decide, by decide, by decide,
   by decide, by decide, by decide, by decide⟩

set_option maxRecDepth 1000000 in
/-- C8 counterexample: on the single-node full tree `c8_pre` (`M = 8`, keys
10..80), inserting the absent key 45 displaces 80 into a new right leaf;
deleting 45 again stops at the low-water check (7 > 8 − 8/4 keys) without
merging the leaf back, so the final tree assigns its keys to two nodes where
the original had one — the trees are not structurally equal. -/
theorem C8_counterexample_insert_delete_not_identity :
    (ttree_lookup intCmp c8_pre 45).1 = none ∧
    (ttree_insert intCmp c8_pre 45).1 = 0 ∧
    (ttree_delete intCmp c8_mid 45).1 = some 45 ∧
    chainPartition c8_pre = [[10, 20, 30, 40, 50, 60, 70, 80]] ∧
    chainPartition c8_post = [[10, 20, 30, 40, 50, 60, 70], [80]] ∧
    chainPartition c8_post ≠ chainPartition c8_pre ∧
    c8_post.nodes.length ≠ c8_pre.nodes.length :=
  ⟨by decide, by decide, by decide, by decide, by decide, by decide, by decide⟩

/-- C8 amended: on the simple round-trip path — the first lookup misses with
a `BOUND` pending cursor on a non-full node `v`, the second lookup finds the
inserted key at the position it was inserted at, and after the deletion's
window contraction the node stays above the low-water mark — insert followed
by delete of the same key restores the key-to-node partition: node `v` ends
up with exactly its original window keys (though possibly at shifted slots),
every other arena slot, the root pointer and the arena size are unchanged,
and `v` keeps all of its links and its balance factor.  Structural equality
of the full states does not hold in general (see the counterexample). -/
theorem C8_amended_roundtrip_restores_partition
    (cmp : Cmp) (t : Ttree) (item : Key) (v rt : Nat) (c1 c2 : TtreeCursor) (r : Key)
    (hroot : t.root = some rt)
    (hc1 : ttree_lookup cmp t (ttree_item2key t item) = (none, c1))
    (htn : c1.tnode = some v) (hside : c1.side = TNODE_BOUND)
    (hnf : ¬ tnode_is_full t (getn t v))
    (hval : v < t.nodes.length)
    (hlen : ((getn t v).keys.length : Int) = t.keys_per_tnode)
    (h0 : 0 ≤ (getn t v).min_idx)
    (hwin : (getn t v).min_idx ≤ (getn t v).max_idx + 1)
    (hmax : (getn t v).max_idx < t.keys_per_tnode)
    (hidx1 : (getn t v).min_idx ≤ c1.idx) (hidx2 : c1.idx ≤ (getn t v).max_idx + 1)
    (hnfn : tnode_num_keys (getn t v) < t.keys_per_tnode)
    (hstop : tnode_num_keys (getn t v) > min_tnode_entries t)
    (hlk2 : ttree_lookup cmp (ttree_insert cmp t item).2 (ttree_item2key t item) =
      (some r, c2))
    (hc2t : c2.tnode = some v)
    (hc2pos : c2.idx - (getn (ttree_insert cmp t item).2 v).min_idx =
      c1.idx - (getn t v).min_idx) :
    (ttree_delete cmp (ttree_insert cmp t item).2 (ttree_item2key t item)).1 = some r ∧
    windowKeys (getn (ttree_delete cmp (ttree_insert cmp t item).2
      (ttree_item2key t item)).2 v) = windowKeys (getn t v) ∧
    (∀ j, j ≠ v → (ttree_delete cmp (ttree_insert cmp t item).2
      (ttree_item2key t item)).2.nodes.getD j none = t.nodes.getD j none) ∧
    (ttree_delete cmp (ttree_insert cmp t item).2 (ttree_item2key t item)).2.root = t.root ∧
    (ttree_delete cmp (ttree_insert cmp t item).2
      (ttree_item2key t item)).2.nodes.length = t.nodes.length ∧
    (getn (ttree_delete cmp (ttree_insert cmp t item).2
      (ttree_item2key t item)).2 v).parent = (getn t v).parent ∧
    (getn (ttree_delete cmp (ttree_insert cmp t item).2
      (ttree_item2key t item)).2 v).left = (getn t v).left ∧
    (getn (ttree_delete cmp (ttree_insert cmp t item).2
      (ttree_item2key t item)).2 v).right = (getn t v).right ∧
    (getn (ttree_delete cmp (ttree_insert cmp t item).2
      (ttree_item2key t item)).2 v).successor = (getn t v).successor ∧
    (getn (ttree_delete cmp (ttree_insert cmp t item).2
      (ttree_item2key t item)).2 v).bfc = (getn t v).bfc := by
  have hknum : tnode_num_keys (getn t v) =
      (getn t v).max_idx - (getn t v).min_idx + 1 := rfl
  have hmiss : (ttree_lookup cmp t (ttree_item2key t item)).1 = none := by rw [hc1]
  have hc1p : (ttree_lookup cmp t (ttree_item2key t item)).2 = c1 := by rw [hc1]
  have e1v : c1.tnode.getD 0 = v := by rw [htn]; rfl
  have hins : ttree_insert cmp t item =
      (0, updn (setn t v (increase_tnode_window t (getn t v) c1.idx).1) v
        (fun n => { n with keys := lset n.keys (increase_tnode_window t (getn t v) c1.idx).2 (ttree_item2key t item) })) := by
    simp only [ttree_insert, ttree_insert_at_cursor, hmiss, hc1p, hroot,
      Option.isSome_none, Bool.false_eq_true, false_and, if_false, e1v]
    rw [if_pos hside, if_neg hnf]
  have hins2 : (ttree_insert cmp t item).2 =
      updn (setn t v (increase_tnode_window t (getn t v) c1.idx).1) v
        (fun n => { n with keys := lset n.keys (increase_tnode_window t (getn t v) c1.idx).2 (ttree_item2key t item) }) := by
    rw [hins]
  rw [hins2] at hlk2 hc2pos ⊢
  have hsetlen : v < (setn t v (increase_tnode_window t (getn t v) c1.idx).1).nodes.length := by
    rw [setn_nodes_length]; exact hval
  have hT2v : getn (updn (setn t v (increase_tnode_window t (getn t v) c1.idx).1) v
      (fun n => { n with keys := lset n.keys (increase_tnode_window t (getn t v) c1.idx).2 (ttree_item2key t item) })) v =
      { (increase_tnode_window t (getn t v) c1.idx).1 with
        keys := lset (increase_tnode_window t (getn t v) c1.idx).1.keys (increase_tnode_window t (getn t v) c1.idx).2 (ttree_item2key t item) } := by
    rw [getn_updn_self _ _ _ hsetlen, getn_setn_self _ _ _ hval]
  have hval2 : v < (updn (setn t v (increase_tnode_window t (getn t v) c1.idx).1) v
      (fun n => { n with keys := lset n.keys (increase_tnode_window t (getn t v) c1.idx).2 (ttree_item2key t item) })).nodes.length := by
    rw [updn_nodes_length, setn_nodes_length]; exact hval
  have hframe2 : ∀ j, j ≠ v →
      (updn (setn t v (increase_tnode_window t (getn t v) c1.idx).1) v
        (fun n => { n with keys := lset n.keys (increase_tnode_window t (getn t v) c1.idx).2 (ttree_item2key t item) })).nodes.getD j none = t.nodes.getD j none := by
    intro j hj
    rw [updn_eq, nodes_getD_setn_ne _ _ _ _ hj, nodes_getD_setn_ne _ _ _ _ hj]
  have hnum2 : tnode_num_keys (getn (updn (setn t v
      (increase_tnode_window t (getn t v) c1.idx).1) v
      (fun n => { n with keys := lset n.keys (increase_tnode_window t (getn t v) c1.idx).2 (ttree_item2key t item) })) v) =
      tnode_num_keys (getn t v) + 1 := by
    rw [hT2v]
    exact increase_num t (getn t v) c1.idx
  have hlen2 : ((getn (updn (setn t v (increase_tnode_window t (getn t v) c1.idx).1) v
      (fun n => { n with keys := lset n.keys (increase_tnode_window t (getn t v) c1.idx).2 (ttree_item2key t item) })) v).keys.length : Int) = t.keys_per_tnode := by
    rw [hT2v]
    show ((lset (increase_tnode_window t (getn t v) c1.idx).1.keys
      (increase_tnode_window t (getn t v) c1.idx).2 (ttree_item2key t item)).length : Int) = _
    rw [length_lset, increase_keys_length]
    exact hlen
  have hw2 : ((getn (updn (setn t v (increase_tnode_window t (getn t v) c1.idx).1) v
      (fun n => { n with keys := lset n.keys (increase_tnode_window t (getn t v) c1.idx).2 (ttree_item2key t item) })) v).min_idx = (getn t v).min_idx ∧
      (getn (updn (setn t v (increase_tnode_window t (getn t v) c1.idx).1) v
        (fun n => { n with keys := lset n.keys (increase_tnode_window t (getn t v) c1.idx).2 (ttree_item2key t item) })) v).max_idx = (getn t v).max_idx + 1 ∧
      t.keys_per_tnode - 1 - (getn t v).max_idx > (getn t v).min_idx) ∨
     ((getn (updn (setn t v (increase_tnode_window t (getn t v) c1.idx).1) v
        (fun n => { n with keys := lset n.keys (increase_tnode_window t (getn t v) c1.idx).2 (ttree_item2key t item) })) v).min_idx = (getn t v).min_idx - 1 ∧
      (getn (updn (setn t v (increase_tnode_window t (getn t v) c1.idx).1) v
        (fun n => { n with keys := lset n.keys (increase_tnode_window t (getn t v) c1.idx).2 (ttree_item2key t item) })) v).max_idx = (getn t v).max_idx ∧
      ¬ t.keys_per_tnode - 1 - (getn t v).max_idx > (getn t v).min_idx) := by
    by_cases hb : t.keys_per_tnode - 1 - (getn t v).max_idx > (getn t v).min_idx
    · exact Or.inl ⟨by rw [hT2v, increase_eq_pos t _ _ hb],
        by rw [hT2v, increase_eq_pos t _ _ hb], hb⟩
    · exact Or.inr ⟨by rw [hT2v, increase_eq_neg t _ _ hb],
        by rw [hT2v, increase_eq_neg t _ _ hb], hb⟩
  have hkp : (updn (setn t v (increase_tnode_window t (getn t v) c1.idx).1) v
      (fun n => { n with keys := lset n.keys (increase_tnode_window t (getn t v) c1.idx).2 (ttree_item2key t item) })).keys_per_tnode = t.keys_per_tnode := rfl
  have hdw := windowKeys_decrease
    (updn (setn t v (increase_tnode_window t (getn t v) c1.idx).1) v
      (fun n => { n with keys := lset n.keys (increase_tnode_window t (getn t v) c1.idx).2 (ttree_item2key t item) }))
    (getn (updn (setn t v (increase_tnode_window t (getn t v) c1.idx).1) v
      (fun n => { n with keys := lset n.keys (increase_tnode_window t (getn t v) c1.idx).2 (ttree_item2key t item) })) v)
    c2.idx hlen2
    (by rcases hw2 with ⟨h1, h2, h3⟩ | ⟨h1, h2, h3⟩ <;> omega)
    (by rcases hw2 with ⟨h1, h2, h3⟩ | ⟨h1, h2, h3⟩ <;> omega)
    (by rcases hw2 with ⟨h1, h2, h3⟩ | ⟨h1, h2, h3⟩ <;> omega)
    (by rcases hw2 with ⟨h1, h2, h3⟩ | ⟨h1, h2, h3⟩ <;> omega)
    (by rcases hw2 with ⟨h1, h2, h3⟩ | ⟨h1, h2, h3⟩ <;> omega)
  have hiw : windowKeys (getn (updn (setn t v
      (increase_tnode_window t (getn t v) c1.idx).1) v
      (fun n => { n with keys := lset n.keys (increase_tnode_window t (getn t v) c1.idx).2 (ttree_item2key t item) })) v) =
      (windowKeys (getn t v)).insertIdx (c1.idx - (getn t v).min_idx).toNat
        (ttree_item2key t item) := by
    rw [hT2v]
    exact windowKeys_increase_set t (getn t v) c1.idx (ttree_item2key t item)
      hlen h0 hwin hmax hidx1 hidx2 hnfn
  have e2v : c2.tnode.getD 0 = v := by rw [hc2t]; rfl
  have hstop2 : tnode_num_keys (getn (updn (setn t v
      (increase_tnode_window t (getn t v) c1.idx).1) v
      (fun n => { n with keys := lset n.keys (increase_tnode_window t (getn t v) c1.idx).2 (ttree_item2key t item) })) v) - 1 >
      min_tnode_entries (updn (setn t v (increase_tnode_window t (getn t v) c1.idx).1) v
        (fun n => { n with keys := lset n.keys (increase_tnode_window t (getn t v) c1.idx).2 (ttree_item2key t item) })) := by
    rw [hnum2]
    show tnode_num_keys (getn t v) + 1 - 1 > min_tnode_entries t
    omega
  have hdelc1 : (ttree_delete_at_cursor (updn (setn t v
      (increase_tnode_window t (getn t v) c1.idx).1) v
      (fun n => { n with keys := lset n.keys (increase_tnode_window t (getn t v) c1.idx).2 (ttree_item2key t item) })) c2).2.1 =
      setn (updn (setn t v (increase_tnode_window t (getn t v) c1.idx).1) v
        (fun n => { n with keys := lset n.keys (increase_tnode_window t (getn t v) c1.idx).2 (ttree_item2key t item) })) v
        (decrease_tnode_window
          (updn (setn t v (increase_tnode_window t (getn t v) c1.idx).1) v
            (fun n => { n with keys := lset n.keys (increase_tnode_window t (getn t v) c1.idx).2 (ttree_item2key t item) }))
          (getn (updn (setn t v (increase_tnode_window t (getn t v) c1.idx).1) v
            (fun n => { n with keys := lset n.keys (increase_tnode_window t (getn t v) c1.idx).2 (ttree_item2key t item) })) v)
          c2.idx).1 := by
    unfold ttree_delete_at_cursor
    rw [e2v, if_pos ?_]
    rw [getn_setn_self _ _ _ hval2, decrease_num]
    exact hstop2
  have hdelr : ttree_delete cmp (updn (setn t v
      (increase_tnode_window t (getn t v) c1.idx).1) v
      (fun n => { n with keys := lset n.keys (increase_tnode_window t (getn t v) c1.idx).2 (ttree_item2key t item) }))
      (ttree_item2key t item) =
      (some r, (ttree_delete_at_cursor (updn (setn t v
        (increase_tnode_window t (getn t v) c1.idx).1) v
        (fun n => { n with keys := lset n.keys (increase_tnode_window t (getn t v) c1.idx).2 (ttree_item2key t item) })) c2).2.1) := by
    unfold ttree_delete
    rw [hlk2]
  rw [hdelr, hdelc1]
  refine ⟨rfl, ?_, ?_, rfl, ?_, ?_, ?_, ?_, ?_, ?_⟩
  · show windowKeys (getn (setn _ v _) v) = _
    rw [getn_setn_self _ _ _ hval2, hdw, hiw]
    have hpp : (c2.idx - (getn (updn (setn t v
        (increase_tnode_window t (getn t v) c1.idx).1) v
        (fun n => { n with keys := lset n.keys (increase_tnode_window t (getn t v) c1.idx).2 (ttree_item2key t item) })) v).min_idx).toNat =
        (c1.idx - (getn t v).min_idx).toNat := by
      rw [hc2pos]
    rw [hpp, List.eraseIdx_insertIdx]
  · intro j hj
    show (setn _ v _).nodes.getD j none = _
    rw [nodes_getD_setn_ne _ _ _ _ hj]
    exact hframe2 j hj
  · show (setn _ v _).nodes.length = _
    rw [setn_nodes_length, updn_nodes_length, setn_nodes_length]
  · show (getn (setn _ v _) v).parent = _
    rw [getn_setn_self _ _ _ hval2, (decrease_fields ..).1, hT2v]
    exact (increase_fields t (getn t v) c1.idx).1
  · show (getn (setn _ v _) v).left = _
    rw [getn_setn_self _ _ _ hval2, (decrease_fields ..).2.2.1, hT2v]
    exact (increase_fields t (getn t v) c1.idx).2.2.1
  · show (getn (setn _ v _) v).right = _
    rw [getn_setn_self _ _ _ hval2, (decrease_fields ..).2.2.2.1, hT2v]
    exact (increase_fields t (getn t v) c1.idx).2.2.2.1
  · show (getn (setn _ v _) v).successor = _
    rw [getn_setn_self _ _ _ hval2, (decrease_fields ..).2.1, hT2v]
    exact (increase_fields t (getn t v) c1.idx).2.1
  · show (getn (setn _ v _) v).bfc = _
    rw [getn_setn_self _ _ _ hval2, (decrease_fields ..).2.2.2.2.1, hT2v]
    exact (increase_fields t (getn t v) c1.idx).2.2.2.2.1

set_option maxRecDepth 1000000 in
/-- C8 witness: on the seven-key single-node tree `c8w_tree` (`M = 8`, not
full, above the low-water mark), inserting 45 and deleting it again restores
node 0's window keys and leaves every other part of the state unchanged. -/
theorem C8_witness :
    (ttree_delete intCmp (ttree_insert intCmp c8w_tree 45).2
      (ttree_item2key c8w_tree 45)).1 =
      some (ttree_key2item (ttree_insert intCmp c8w_tree 45).2 45) ∧
    windowKeys (getn (ttree_delete intCmp (ttree_insert intCmp c8w_tree 45).2
      (ttree_item2key c8w_tree 45)).2 0) = windowKeys (getn c8w_tree 0) ∧
    (∀ j, j ≠ 0 → (ttree_delete intCmp (ttree_insert intCmp c8w_tree 45).2
      (ttree_item2key c8w_tree 45)).2.nodes.getD j none = c8w_tree.nodes.getD j none) ∧
    (ttree_delete intCmp (ttree_insert intCmp c8w_tree 45).2
      (ttree_item2key c8w_tree 45)).2.root = c8w_tree.root ∧
    (ttree_delete intCmp (ttree_insert intCmp c8w_tree 45).2
      (ttree_item2key c8w_tree 45)).2.nodes.length = c8w_tree.nodes.length ∧
    (getn (ttree_delete intCmp (ttree_insert intCmp c8w_tree 45).2
      (ttree_item2key c8w_tree 45)).2 0).parent = (getn c8w_tree 0).parent ∧
    (getn (ttree_delete intCmp (ttree_insert intCmp c8w_tree 45).2
      (ttree_item2key c8w_tree 45)).2 0).left = (getn c8w_tree 0).left ∧
    (getn (ttree_delete intCmp (ttree_insert intCmp c8w_tree 45).2
      (ttree_item2key c8w_tree 45)).2 0).right = (getn c8w_tree 0).right ∧
    (getn (ttree_delete intCmp (ttree_insert intCmp c8w_tree 45).2
      (ttree_item2key c8w_tree 45)).2 0).successor = (getn c8w_tree 0).successor ∧
    (getn (ttree_delete intCmp (ttree_insert intCmp c8w_tree 45).2
      (ttree_item2key c8w_tree 45)).2 0).bfc = (getn c8w_tree 0).bfc :=
  C8_amended_roundtrip_restores_partition intCmp c8w_tree 45 0 0
    (ttree_lookup intCmp c8w_tree (ttree_item2key c8w_tree 45)).2
    (ttree_lookup intCmp (ttree_insert intCmp c8w_tree 45).2
      (ttree_item2key c8w_tree 45)).2
    (ttree_key2item (ttree_insert intCmp c8w_tree 45).2 45)
    (by decide) (by decide) (by decide) (by decide) (by decide) (by decide) (by decide)
    (by decide) (by decide) (by decide) (by decide) (by decide) (by decide) (by decide)
    (by decide) (by decide) (by decide)

/-- C2 amended: a bound insertion into a full node removes the node's current
maximum into a temporary, re-expands the window and stores the new key at the
freed logical position, and then propagates the displaced maximum by the
following corrected rule: a new right leaf below the node itself whenever the
node has no successor OR no right child (not only when it has neither, as the
claim states); a new left leaf below the successor when the node has both and
the successor is full; and only when the node has both a successor and a
right child and the successor has room is the displaced key inserted at the
successor's minimum position with no allocation. -/
theorem C2_amended_full_bound_insertion
    (t : Ttree) (cursor : TtreeCursor) (item : Key) (v rt : Nat)
    (hroot : t.root = some rt)
    (htn : cursor.tnode = some v) (hside : cursor.side = TNODE_BOUND)
    (hfull : tnode_is_full t (getn t v)) :
    (((getn (updn (setn (updn t v (fun n => { n with max_idx := n.max_idx - 1 })) v (increase_tnode_window (updn t v (fun n => { n with max_idx := n.max_idx - 1 })) (getn (updn t v (fun n => { n with max_idx := n.max_idx - 1 })) v) cursor.idx).1) v (fun n => { n with keys := lset n.keys (increase_tnode_window (updn t v (fun n => { n with max_idx := n.max_idx - 1 })) (getn (updn t v (fun n => { n with max_idx := n.max_idx - 1 })) v) cursor.idx).2 (ttree_item2key t item) })) v).successor = none ∨ (getn (updn (setn (updn t v (fun n => { n with max_idx := n.max_idx - 1 })) v (increase_tnode_window (updn t v (fun n => { n with max_idx := n.max_idx - 1 })) (getn (updn t v (fun n => { n with max_idx := n.max_idx - 1 })) v) cursor.idx).1) v (fun n => { n with keys := lset n.keys (increase_tnode_window (updn t v (fun n => { n with max_idx := n.max_idx - 1 })) (getn (updn t v (fun n => { n with max_idx := n.max_idx - 1 })) v) cursor.idx).2 (ttree_item2key t item) })) v).right = none) →
      ttree_insert_at_cursor t cursor item =
        insert_new_node (updn (setn (updn t v (fun n => { n with max_idx := n.max_idx - 1 })) v (increase_tnode_window (updn t v (fun n => { n with max_idx := n.max_idx - 1 })) (getn (updn t v (fun n => { n with max_idx := n.max_idx - 1 })) v) cursor.idx).1) v (fun n => { n with keys := lset n.keys (increase_tnode_window (updn t v (fun n => { n with max_idx := n.max_idx - 1 })) (getn (updn t v (fun n => { n with max_idx := n.max_idx - 1 })) v) cursor.idx).2 (ttree_item2key t item) })) v (lget (getn t v).keys (getn t v).max_idx) { { cursor with idx := (increase_tnode_window (updn t v (fun n => { n with max_idx := n.max_idx - 1 })) (getn (updn t v (fun n => { n with max_idx := n.max_idx - 1 })) v) cursor.idx).2 } with side := TNODE_RIGHT, idx := first_tnode_idx (updn (setn (updn t v (fun n => { n with max_idx := n.max_idx - 1 })) v (increase_tnode_window (updn t v (fun n => { n with max_idx := n.max_idx - 1 })) (getn (updn t v (fun n => { n with max_idx := n.max_idx - 1 })) v) cursor.idx).1) v (fun n => { n with keys := lset n.keys (increase_tnode_window (updn t v (fun n => { n with max_idx := n.max_idx - 1 })) (getn (updn t v (fun n => { n with max_idx := n.max_idx - 1 })) v) cursor.idx).2 (ttree_item2key t item) })) } ({ cursor with idx := (increase_tnode_window (updn t v (fun n => { n with max_idx := n.max_idx - 1 })) (getn (updn t v (fun n => { n with max_idx := n.max_idx - 1 })) v) cursor.idx).2 }) true) ∧
    (∀ s, (getn (updn (setn (updn t v (fun n => { n with max_idx := n.max_idx - 1 })) v (increase_tnode_window (updn t v (fun n => { n with max_idx := n.max_idx - 1 })) (getn (updn t v (fun n => { n with max_idx := n.max_idx - 1 })) v) cursor.idx).1) v (fun n => { n with keys := lset n.keys (increase_tnode_window (updn t v (fun n => { n with max_idx := n.max_idx - 1 })) (getn (updn t v (fun n => { n with max_idx := n.max_idx - 1 })) v) cursor.idx).2 (ttree_item2key t item) })) v).successor = some s →
      (getn (updn (setn (updn t v (fun n => { n with max_idx := n.max_idx - 1 })) v (increase_tnode_window (updn t v (fun n => { n with max_idx := n.max_idx - 1 })) (getn (updn t v (fun n => { n with max_idx := n.max_idx - 1 })) v) cursor.idx).1) v (fun n => { n with keys := lset n.keys (increase_tnode_window (updn t v (fun n => { n with max_idx := n.max_idx - 1 })) (getn (updn t v (fun n => { n with max_idx := n.max_idx - 1 })) v) cursor.idx).2 (ttree_item2key t item) })) v).right ≠ none →
      tnode_is_full (updn (setn (updn t v (fun n => { n with max_idx := n.max_idx - 1 })) v (increase_tnode_window (updn t v (fun n => { n with max_idx := n.max_idx - 1 })) (getn (updn t v (fun n => { n with max_idx := n.max_idx - 1 })) v) cursor.idx).1) v (fun n => { n with keys := lset n.keys (increase_tnode_window (updn t v (fun n => { n with max_idx := n.max_idx - 1 })) (getn (updn t v (fun n => { n with max_idx := n.max_idx - 1 })) v) cursor.idx).2 (ttree_item2key t item) })) (getn (updn (setn (updn t v (fun n => { n with max_idx := n.max_idx - 1 })) v (increase_tnode_window (updn t v (fun n => { n with max_idx := n.max_idx - 1 })) (getn (updn t v (fun n => { n with max_idx := n.max_idx - 1 })) v) cursor.idx).1) v (fun n => { n with keys := lset n.keys (increase_tnode_window (updn t v (fun n => { n with max_idx := n.max_idx - 1 })) (getn (updn t v (fun n => { n with max_idx := n.max_idx - 1 })) v) cursor.idx).2 (ttree_item2key t item) })) s) →
      ttree_insert_at_cursor t cursor item =
        insert_new_node (updn (setn (updn t v (fun n => { n with max_idx := n.max_idx - 1 })) v (increase_tnode_window (updn t v (fun n => { n with max_idx := n.max_idx - 1 })) (getn (updn t v (fun n => { n with max_idx := n.max_idx - 1 })) v) cursor.idx).1) v (fun n => { n with keys := lset n.keys (increase_tnode_window (updn t v (fun n => { n with max_idx := n.max_idx - 1 })) (getn (updn t v (fun n => { n with max_idx := n.max_idx - 1 })) v) cursor.idx).2 (ttree_item2key t item) })) s (lget (getn t v).keys (getn t v).max_idx) { { cursor with idx := (increase_tnode_window (updn t v (fun n => { n with max_idx := n.max_idx - 1 })) (getn (updn t v (fun n => { n with max_idx := n.max_idx - 1 })) v) cursor.idx).2 } with side := TNODE_LEFT, idx := first_tnode_idx (updn (setn (updn t v (fun n => { n with max_idx := n.max_idx - 1 })) v (increase_tnode_window (updn t v (fun n => { n with max_idx := n.max_idx - 1 })) (getn (updn t v (fun n => { n with max_idx := n.max_idx - 1 })) v) cursor.idx).1) v (fun n => { n with keys := lset n.keys (increase_tnode_window (updn t v (fun n => { n with max_idx := n.max_idx - 1 })) (getn (updn t v (fun n => { n with max_idx := n.max_idx - 1 })) v) cursor.idx).2 (ttree_item2key t item) })) } ({ cursor with idx := (increase_tnode_window (updn t v (fun n => { n with max_idx := n.max_idx - 1 })) (getn (updn t v (fun n => { n with max_idx := n.max_idx - 1 })) v) cursor.idx).2 }) true) ∧
    (∀ s, (getn (updn (setn (updn t v (fun n => { n with max_idx := n.max_idx - 1 })) v (increase_tnode_window (updn t v (fun n => { n with max_idx := n.max_idx - 1 })) (getn (updn t v (fun n => { n with max_idx := n.max_idx - 1 })) v) cursor.idx).1) v (fun n => { n with keys := lset n.keys (increase_tnode_window (updn t v (fun n => { n with max_idx := n.max_idx - 1 })) (getn (updn t v (fun n => { n with max_idx := n.max_idx - 1 })) v) cursor.idx).2 (ttree_item2key t item) })) v).successor = some s →
      (getn (updn (setn (updn t v (fun n => { n with max_idx := n.max_idx - 1 })) v (increase_tnode_window (updn t v (fun n => { n with max_idx := n.max_idx - 1 })) (getn (updn t v (fun n => { n with max_idx := n.max_idx - 1 })) v) cursor.idx).1) v (fun n => { n with keys := lset n.keys (increase_tnode_window (updn t v (fun n => { n with max_idx := n.max_idx - 1 })) (getn (updn t v (fun n => { n with max_idx := n.max_idx - 1 })) v) cursor.idx).2 (ttree_item2key t item) })) v).right ≠ none →
      ¬ tnode_is_full (updn (setn (updn t v (fun n => { n with max_idx := n.max_idx - 1 })) v (increase_tnode_window (updn t v (fun n => { n with max_idx := n.max_idx - 1 })) (getn (updn t v (fun n => { n with max_idx := n.max_idx - 1 })) v) cursor.idx).1) v (fun n => { n with keys := lset n.keys (increase_tnode_window (updn t v (fun n => { n with max_idx := n.max_idx - 1 })) (getn (updn t v (fun n => { n with max_idx := n.max_idx - 1 })) v) cursor.idx).2 (ttree_item2key t item) })) (getn (updn (setn (updn t v (fun n => { n with max_idx := n.max_idx - 1 })) v (increase_tnode_window (updn t v (fun n => { n with max_idx := n.max_idx - 1 })) (getn (updn t v (fun n => { n with max_idx := n.max_idx - 1 })) v) cursor.idx).1) v (fun n => { n with keys := lset n.keys (increase_tnode_window (updn t v (fun n => { n with max_idx := n.max_idx - 1 })) (getn (updn t v (fun n => { n with max_idx := n.max_idx - 1 })) v) cursor.idx).2 (ttree_item2key t item) })) s) →
      ttree_insert_at_cursor t cursor item =
        (updn (setn (updn (setn (updn t v (fun n => { n with max_idx := n.max_idx - 1 })) v (increase_tnode_window (updn t v (fun n => { n with max_idx := n.max_idx - 1 })) (getn (updn t v (fun n => { n with max_idx := n.max_idx - 1 })) v) cursor.idx).1) v (fun n => { n with keys := lset n.keys (increase_tnode_window (updn t v (fun n => { n with max_idx := n.max_idx - 1 })) (getn (updn t v (fun n => { n with max_idx := n.max_idx - 1 })) v) cursor.idx).2 (ttree_item2key t item) })) s (increase_tnode_window (updn (setn (updn t v (fun n => { n with max_idx := n.max_idx - 1 })) v (increase_tnode_window (updn t v (fun n => { n with max_idx := n.max_idx - 1 })) (getn (updn t v (fun n => { n with max_idx := n.max_idx - 1 })) v) cursor.idx).1) v (fun n => { n with keys := lset n.keys (increase_tnode_window (updn t v (fun n => { n with max_idx := n.max_idx - 1 })) (getn (updn t v (fun n => { n with max_idx := n.max_idx - 1 })) v) cursor.idx).2 (ttree_item2key t item) })) (getn (updn (setn (updn t v (fun n => { n with max_idx := n.max_idx - 1 })) v (increase_tnode_window (updn t v (fun n => { n with max_idx := n.max_idx - 1 })) (getn (updn t v (fun n => { n with max_idx := n.max_idx - 1 })) v) cursor.idx).1) v (fun n => { n with keys := lset n.keys (increase_tnode_window (updn t v (fun n => { n with max_idx := n.max_idx - 1 })) (getn (updn t v (fun n => { n with max_idx := n.max_idx - 1 })) v) cursor.idx).2 (ttree_item2key t item) })) s) (getn (updn (setn (updn t v (fun n => { n with max_idx := n.max_idx - 1 })) v (increase_tnode_window (updn t v (fun n => { n with max_idx := n.max_idx - 1 })) (getn (updn t v (fun n => { n with max_idx := n.max_idx - 1 })) v) cursor.idx).1) v (fun n => { n with keys := lset n.keys (increase_tnode_window (updn t v (fun n => { n with max_idx := n.max_idx - 1 })) (getn (updn t v (fun n => { n with max_idx := n.max_idx - 1 })) v) cursor.idx).2 (ttree_item2key t item) })) s).min_idx).1) s (fun n => { n with keys := lset n.keys (increase_tnode_window (updn (setn (updn t v (fun n => { n with max_idx := n.max_idx - 1 })) v (increase_tnode_window (updn t v (fun n => { n with max_idx := n.max_idx - 1 })) (getn (updn t v (fun n => { n with max_idx := n.max_idx - 1 })) v) cursor.idx).1) v (fun n => { n with keys := lset n.keys (increase_tnode_window (updn t v (fun n => { n with max_idx := n.max_idx - 1 })) (getn (updn t v (fun n => { n with max_idx := n.max_idx - 1 })) v) cursor.idx).2 (ttree_item2key t item) })) (getn (updn (setn (updn t v (fun n => { n with max_idx := n.max_idx - 1 })) v (increase_tnode_window (updn t v (fun n => { n with max_idx := n.max_idx - 1 })) (getn (updn t v (fun n => { n with max_idx := n.max_idx - 1 })) v) cursor.idx).1) v (fun n => { n with keys := lset n.keys (increase_tnode_window (updn t v (fun n => { n with max_idx := n.max_idx - 1 })) (getn (updn t v (fun n => { n with max_idx := n.max_idx - 1 })) v) cursor.idx).2 (ttree_item2key t item) })) s) (getn (updn (setn (updn t v (fun n => { n with max_idx := n.max_idx - 1 })) v (increase_tnode_window (updn t v (fun n => { n with max_idx := n.max_idx - 1 })) (getn (updn t v (fun n => { n with max_idx := n.max_idx - 1 })) v) cursor.idx).1) v (fun n => { n with keys := lset n.keys (increase_tnode_window (updn t v (fun n => { n with max_idx := n.max_idx - 1 })) (getn (updn t v (fun n => { n with max_idx := n.max_idx - 1 })) v) cursor.idx).2 (ttree_item2key t item) })) s).min_idx).2 (lget (getn t v).keys (getn t v).max_idx) }), { cursor with idx := (increase_tnode_window (updn t v (fun n => { n with max_idx := n.max_idx - 1 })) (getn (updn t v (fun n => { n with max_idx := n.max_idx - 1 })) v) cursor.idx).2 })) := by
  have e1v : cursor.tnode.getD 0 = v := by rw [htn]; rfl
  refine ⟨?_, ?_, ?_⟩
  · intro hA
    simp only [ttree_insert_at_cursor, hroot, e1v]
    rw [if_pos hside, if_pos hfull, if_pos hA]
  · intro s hs hr hf
    have hno : ¬ ((getn (updn (setn (updn t v (fun n => { n with max_idx := n.max_idx - 1 })) v (increase_tnode_window (updn t v (fun n => { n with max_idx := n.max_idx - 1 })) (getn (updn t v (fun n => { n with max_idx := n.max_idx - 1 })) v) cursor.idx).1) v (fun n => { n with keys := lset n.keys (increase_tnode_window (updn t v (fun n => { n with max_idx := n.max_idx - 1 })) (getn (updn t v (fun n => { n with max_idx := n.max_idx - 1 })) v) cursor.idx).2 (ttree_item2key t item) })) v).successor = none ∨
        (getn (updn (setn (updn t v (fun n => { n with max_idx := n.max_idx - 1 })) v (increase_tnode_window (updn t v (fun n => { n with max_idx := n.max_idx - 1 })) (getn (updn t v (fun n => { n with max_idx := n.max_idx - 1 })) v) cursor.idx).1) v (fun n => { n with keys := lset n.keys (increase_tnode_window (updn t v (fun n => { n with max_idx := n.max_idx - 1 })) (getn (updn t v (fun n => { n with max_idx := n.max_idx - 1 })) v) cursor.idx).2 (ttree_item2key t item) })) v).right = none) := by
      rintro (h | h)
      · rw [hs] at h; exact Option.noConfusion h
      · exact hr h
    have hsid : (getn (updn (setn (updn t v (fun n => { n with max_idx := n.max_idx - 1 })) v (increase_tnode_window (updn t v (fun n => { n with max_idx := n.max_idx - 1 })) (getn (updn t v (fun n => { n with max_idx := n.max_idx - 1 })) v) cursor.idx).1) v (fun n => { n with keys := lset n.keys (increase_tnode_window (updn t v (fun n => { n with max_idx := n.max_idx - 1 })) (getn (updn t v (fun n => { n with max_idx := n.max_idx - 1 })) v) cursor.idx).2 (ttree_item2key t item) })) v).successor.getD 0 = s := by rw [hs]; rfl
    simp only [ttree_insert_at_cursor, hroot, e1v]
    rw [if_pos hside, if_pos hfull, if_neg hno, hsid, if_pos hf]
  · intro s hs hr hf
    have hno : ¬ ((getn (updn (setn (updn t v (fun n => { n with max_idx := n.max_idx - 1 })) v (increase_tnode_window (updn t v (fun n => { n with max_idx := n.max_idx - 1 })) (getn (updn t v (fun n => { n with max_idx := n.max_idx - 1 })) v) cursor.idx).1) v (fun n => { n with keys := lset n.keys (increase_tnode_window (updn t v (fun n => { n with max_idx := n.max_idx - 1 })) (getn (updn t v (fun n => { n with max_idx := n.max_idx - 1 })) v) cursor.idx).2 (ttree_item2key t item) })) v).successor = none ∨
        (getn (updn (setn (updn t v (fun n => { n with max_idx := n.max_idx - 1 })) v (increase_tnode_window (updn t v (fun n => { n with max_idx := n.max_idx - 1 })) (getn (updn t v (fun n => { n with max_idx := n.max_idx - 1 })) v) cursor.idx).1) v (fun n => { n with keys := lset n.keys (increase_tnode_window (updn t v (fun n => { n with max_idx := n.max_idx - 1 })) (getn (updn t v (fun n => { n with max_idx := n.max_idx - 1 })) v) cursor.idx).2 (ttree_item2key t item) })) v).right = none) := by
      rintro (h | h)
      · rw [hs] at h; exact Option.noConfusion h
      · exact hr h
    have hsid : (getn (updn (setn (updn t v (fun n => { n with max_idx := n.max_idx - 1 })) v (increase_tnode_window (updn t v (fun n => { n with max_idx := n.max_idx - 1 })) (getn (updn t v (fun n => { n with max_idx := n.max_idx - 1 })) v) cursor.idx).1) v (fun n => { n with keys := lset n.keys (increase_tnode_window (updn t v (fun n => { n with max_idx := n.max_idx - 1 })) (getn (updn t v (fun n => { n with max_idx := n.max_idx - 1 })) v) cursor.idx).2 (ttree_item2key t item) })) v).successor.getD 0 = s := by rw [hs]; rfl
    simp only [ttree_insert_at_cursor, hroot, e1v]
    rw [if_pos hside, if_pos hfull, if_neg hno, hsid, if_neg hf]

set_option maxRecDepth 1000000 in
/-- C2 witness: inserting 545 into `c2_post`, whose full left leaf (node 1)
now has both a successor (the single-key leaf 3 holding 570, with room) and a
right child, takes the corrected successor branch: no node is allocated and
the displaced maximum 560 lands at the successor's minimum window position. -/
theorem C2_witness :
    (ttree_insert_at_cursor c2_post (ttree_lookup intCmp c2_post 545).2 545).1.nodes.length =
      c2_post.nodes.length ∧
    windowKeys (getn (ttree_insert_at_cursor c2_post
      (ttree_lookup intCmp c2_post 545).2 545).1 3) =
      560 :: windowKeys (getn c2_post 3) := by
  have h := C2_amended_full_bound_insertion c2_post
    (ttree_lookup intCmp c2_post 545).2 545 1 0 (by decide) (by decide) (by decide) (by decide)
  rw [h.2.2 3 (by decide) (by decide) (by decide)]
  exact ⟨by decide, by decide⟩

/-- C9: `__ttree_init` returns 0 exactly when the keys-per-node count lies in
`[TNODE_ITEMS_MIN, TNODE_ITEMS_MAX]` and neither the tree pointer nor the
comparator is null; on failure it returns −1 with errno `EINVAL` and
initializes nothing, and on success the produced tree is empty and carries
exactly the requested parameters. -/
theorem C9_init_validates_arguments :
    ∀ (tp : Option Unit) (nk : Int) (uq : Bool) (cf : Option Nat) (ko : Int),
    ((__ttree_init tp nk uq cf ko).1 = 0 ↔
      (TNODE_ITEMS_MIN ≤ nk ∧ nk ≤ TNODE_ITEMS_MAX ∧ tp ≠ none ∧ cf ≠ none)) ∧
    ((__ttree_init tp nk uq cf ko).1 = 0 ∨ (__ttree_init tp nk uq cf ko).1 = -1) ∧
    ((__ttree_init tp nk uq cf ko).1 = -1 →
      (__ttree_init tp nk uq cf ko).2.1 = some EINVAL ∧
      (__ttree_init tp nk uq cf ko).2.2 = none) ∧
    ((__ttree_init tp nk uq cf ko).1 = 0 →
      (__ttree_init tp nk uq cf ko).2.1 = none) ∧
    (∀ tr, (__ttree_init tp nk uq cf ko).2.2 = some tr →
      tr.root = none ∧ tr.keys_per_tnode = nk ∧ tr.key_offs = ko ∧
      tr.keys_are_unique = uq ∧ some tr.cmp_func = cf ∧ tr.nodes = []) := by
  intro tp nk uq cf ko
  unfold __ttree_init
  by_cases h : nk < TNODE_ITEMS_MIN ∨ nk > TNODE_ITEMS_MAX ∨ tp = none ∨ cf = none
  · rw [if_pos h]
    refine ⟨⟨fun h0 => absurd h0 (by decide), fun hc => ?_⟩, Or.inr rfl,
      fun _ => ⟨rfl, rfl⟩, fun h0 => absurd h0 (by decide), fun tr htr => by simp at htr⟩
    rcases h with h | h | h | h
    · omega
    · omega
    · exact absurd h hc.2.2.1
    · exact absurd h hc.2.2.2
  · rw [if_neg h]
    push_neg at h
    obtain ⟨c, rfl⟩ := Option.ne_none_iff_exists'.mp h.2.2.2
    refine ⟨⟨fun _ => ⟨by omega, by omega, h.2.2.1, by simp⟩, fun _ => rfl⟩, Or.inl rfl,
      fun h0 => absurd h0 (show ¬ (0 : Int) = -1 by decide), fun _ => rfl, fun tr htr => ?_⟩
    injection htr with htr
    subst htr
    exact ⟨rfl, rfl, rfl, rfl, rfl, rfl⟩

/-- C9 witness: a null tree pointer fails with −1 / `EINVAL`, while a valid
call with 8 keys per node succeeds. -/
theorem C9_witness :
    (__ttree_init none 8 true (some 7) 16).1 = -1 ∧
    (__ttree_init none 8 true (some 7) 16).2.1 = some EINVAL ∧
    (__ttree_init (some ()) 8 true (some 7) 16).1 = 0 := by
  have h := C9_init_validates_arguments none 8 true (some 7) 16
  have h2 := C9_init_validates_arguments (some ()) 8 true (some 7) 16
  have hne : ¬ (__ttree_init none 8 true (some 7) 16).1 = 0 := fun hc =>
    (h.1.mp hc).2.2.1 rfl
  have hm1 : (__ttree_init none 8 true (some 7) 16).1 = -1 := by
    rcases h.2.1 with h0 | h0
    · exact absurd h0 hne
    · exact h0
  exact ⟨hm1, (h.2.2.1 hm1).1, h2.1.mpr ⟨by decide, by decide, by decide, by decide⟩⟩

/-- C10: a cursor whose state is not `OPENED` yields NULL from both
`ttree_key_from_cursor` and `ttree_item_from_cursor`; an `OPENED` cursor
yields the key slot at `(tnode, idx)` and the item obtained from it by
subtracting the key offset. -/
theorem C10_cursor_accessors_guard_state : ∀ (t : Ttree) (c : TtreeCursor),
    (c.state ≠ CURSOR_OPENED →
      ttree_key_from_cursor t c = none ∧ ttree_item_from_cursor t c = none) ∧
    (c.state = CURSOR_OPENED →
      ttree_key_from_cursor t c = some (lget (getn t (c.tnode.getD 0)).keys c.idx) ∧
      (lget (getn t (c.tnode.getD 0)).keys c.idx ≠ 0 →
        ttree_item_from_cursor t c =
          some (ttree_key2item t (lget (getn t (c.tnode.getD 0)).keys c.idx)))) := by
  intro t c
  constructor
  · intro h
    have hk : ttree_key_from_cursor t c = none := by
      unfold ttree_key_from_cursor
      rw [if_neg h]
    refine ⟨hk, ?_⟩
    unfold ttree_item_from_cursor
    rw [hk]
  · intro h
    have hk : ttree_key_from_cursor t c =
        some (lget (getn t (c.tnode.getD 0)).keys c.idx) := by
      unfold ttree_key_from_cursor
      rw [if_pos h]
    refine ⟨hk, fun hz => ?_⟩
    unfold ttree_item_from_cursor
    rw [hk]
    show (if lget (getn t (c.tnode.getD 0)).keys c.idx = 0 then none else _) = _
    rw [if_neg hz]

/-- C5 amended: inserting at logical index `idx` in a non-full node expands
the window by one slot on the side that currently has STRICTLY more free
slots, and when both sides have equally many free slots the window expands to
the LEFT (not to the right as claimed); only the elements between the
insertion position and the chosen end shift by one slot. -/
theorem C5_amended_window_expansion (t : Ttree) (n : TtreeNode) (idx : Int)
    (hlen : (n.keys.length : Int) = t.keys_per_tnode)
    (h0 : 0 ≤ n.min_idx) (hwin : n.min_idx ≤ n.max_idx + 1)
    (hmax : n.max_idx < t.keys_per_tnode)
    (hidx1 : n.min_idx ≤ idx) (hidx2 : idx ≤ n.max_idx + 1)
    (hnf : tnode_num_keys n < t.keys_per_tnode) :
    if t.keys_per_tnode - 1 - n.max_idx > n.min_idx then
      (increase_tnode_window t n idx).1.max_idx = n.max_idx + 1 ∧
      (increase_tnode_window t n idx).1.min_idx = n.min_idx ∧
      (increase_tnode_window t n idx).2 = idx ∧
      (∀ i : Int, idx ≤ i → i ≤ n.max_idx + 1 →
        lget (increase_tnode_window t n idx).1.keys i = lget n.keys (i - 1)) ∧
      (∀ i : Int, i < idx ∨ n.max_idx + 1 < i →
        lget (increase_tnode_window t n idx).1.keys i = lget n.keys i)
    else
      (increase_tnode_window t n idx).1.max_idx = n.max_idx ∧
      (increase_tnode_window t n idx).1.min_idx = n.min_idx - 1 ∧
      (increase_tnode_window t n idx).2 = idx - 1 ∧
      (∀ i : Int, n.min_idx - 1 ≤ i → i ≤ idx - 2 →
        lget (increase_tnode_window t n idx).1.keys i = lget n.keys (i + 1)) ∧
      (∀ i : Int, i < n.min_idx - 1 ∨ idx - 2 < i →
        lget (increase_tnode_window t n idx).1.keys i = lget n.keys i) := by
  have hnum : tnode_num_keys n = n.max_idx - n.min_idx + 1 := rfl
  by_cases hb : t.keys_per_tnode - 1 - n.max_idx > n.min_idx
  · rw [if_pos hb, increase_eq_pos t n idx hb]
    have hcd := lget_copyDesc (n.max_idx + 1 - idx + 1).toNat n.keys (n.max_idx + 1)
      (by omega) (by omega)
    refine ⟨rfl, rfl, rfl, fun i hi1 hi2 => ?_, fun i hi => ?_⟩
    · show lget (copyDesc n.keys (n.max_idx + 1) (n.max_idx + 1 - idx + 1).toNat) i = _
      rw [hcd, if_pos (by omega)]
    · show lget (copyDesc n.keys (n.max_idx + 1) (n.max_idx + 1 - idx + 1).toNat) i = _
      rw [hcd, if_neg (by omega)]
  · have hmin1 : 1 ≤ n.min_idx := by omega
    rw [if_neg hb, increase_eq_neg t n idx hb]
    have hca := lget_copyAsc (idx - 1 - (n.min_idx - 1)).toNat n.keys (n.min_idx - 1)
      (by omega) (by omega)
    refine ⟨rfl, rfl, rfl, fun i hi1 hi2 => ?_, fun i hi => ?_⟩
    · show lget (copyAsc n.keys (n.min_idx - 1) (idx - 1 - (n.min_idx - 1)).toNat) i = _
      rw [hca, if_pos (by omega)]
    · show lget (copyAsc n.keys (n.min_idx - 1) (idx - 1 - (n.min_idx - 1)).toNat) i = _
      rw [hca, if_neg (by omega)]

/-- C5 witness: the amended theorem applied to the tied `M = 4` node
`c5_node` at insert index 2: the window expands left, slot 0 takes the old
slot-1 key and slot 2 keeps its key. -/
theorem C5_witness :
    (increase_tnode_window (mkTtree 4) c5_node 2).1.min_idx = c5_node.min_idx - 1 ∧
    (increase_tnode_window (mkTtree 4) c5_node 2).2 = 1 ∧
    lget (increase_tnode_window (mkTtree 4) c5_node 2).1.keys 0 = lget c5_node.keys 1 ∧
    lget (increase_tnode_window (mkTtree 4) c5_node 2).1.keys 2 = lget c5_node.keys 2 := by
  have h := C5_amended_window_expansion (mkTtree 4) c5_node 2 (by decide) (by decide)
    (by decide) (by decide) (by decide) (by decide) (by decide)
  rw [if_neg (by decide)] at h
  exact ⟨h.2.1, h.2.2.1, h.2.2.2.1 0 (by decide) (by decide),
    h.2.2.2.2 2 (Or.inr (by decide))⟩

/-- C7: when the node still holds more than `M - M/4` keys after its window
was contracted, `ttree_delete_at_cursor` returns immediately: the deleted
item is returned, the cursor is closed, and the whole tree — root pointer,
arena size, and every node other than the target — is unchanged; the target
node itself keeps all of its links and its balance factor, and only loses
the window element at the cursor position. -/
theorem C7_delete_stops_above_low_water (t : Ttree) (cursor : TtreeCursor) (tid : Nat)
    (htid : cursor.tnode = some tid) (hval : tid < t.nodes.length)
    (hlen : ((getn t tid).keys.length : Int) = t.keys_per_tnode)
    (h0 : 0 ≤ (getn t tid).min_idx)
    (hwin : (getn t tid).min_idx ≤ (getn t tid).max_idx)
    (hmax : (getn t tid).max_idx < t.keys_per_tnode)
    (hidx1 : (getn t tid).min_idx ≤ cursor.idx) (hidx2 : cursor.idx ≤ (getn t tid).max_idx)
    (hstop : tnode_num_keys (getn t tid) - 1 > min_tnode_entries t) :
    (ttree_delete_at_cursor t cursor).1 =
      ttree_key2item t (lget (getn t tid).keys cursor.idx) ∧
    (ttree_delete_at_cursor t cursor).2.1.root = t.root ∧
    (ttree_delete_at_cursor t cursor).2.1.nodes.length = t.nodes.length ∧
    (∀ j, j ≠ tid →
      (ttree_delete_at_cursor t cursor).2.1.nodes.getD j none = t.nodes.getD j none) ∧
    windowKeys (getn (ttree_delete_at_cursor t cursor).2.1 tid) =
      (windowKeys (getn t tid)).eraseIdx (cursor.idx - (getn t tid).min_idx).toNat ∧
    tnode_num_keys (getn (ttree_delete_at_cursor t cursor).2.1 tid) =
      tnode_num_keys (getn t tid) - 1 ∧
    (getn (ttree_delete_at_cursor t cursor).2.1 tid).parent = (getn t tid).parent ∧
    (getn (ttree_delete_at_cursor t cursor).2.1 tid).left = (getn t tid).left ∧
    (getn (ttree_delete_at_cursor t cursor).2.1 tid).right = (getn t tid).right ∧
    (getn (ttree_delete_at_cursor t cursor).2.1 tid).successor = (getn t tid).successor ∧
    (getn (ttree_delete_at_cursor t cursor).2.1 tid).bfc = (getn t tid).bfc ∧
    (ttree_delete_at_cursor t cursor).2.2.state = CURSOR_CLOSED := by
  have e1 : cursor.tnode.getD 0 = tid := by rw [htid]; rfl
  have hres : ttree_delete_at_cursor t cursor =
      (ttree_key2item t (lget (getn t tid).keys cursor.idx),
       setn t tid (decrease_tnode_window t (getn t tid) cursor.idx).1,
       (fun c0 => if c0.idx >
           (getn (setn t tid (decrease_tnode_window t (getn t tid) cursor.idx).1) tid).max_idx
         then { c0 with idx :=
           (getn (setn t tid (decrease_tnode_window t (getn t tid) cursor.idx).1) tid).max_idx }
         else c0)
       { cursor with idx := (decrease_tnode_window t (getn t tid) cursor.idx).2,
                     state := CURSOR_CLOSED }) := by
    unfold ttree_delete_at_cursor
    rw [e1, if_pos ?_]
    rw [getn_setn_self _ _ _ hval, decrease_num]
    show _ > min_tnode_entries t
    exact hstop
  rw [hres, getn_setn_self _ _ _ hval]
  refine ⟨rfl, rfl, setn_nodes_length .., fun j hj => nodes_getD_setn_ne _ _ _ _ hj,
    windowKeys_decrease t (getn t tid) cursor.idx hlen h0 hwin hmax hidx1 hidx2,
    by rw [decrease_num], (decrease_fields ..).1, (decrease_fields ..).2.2.1,
    (decrease_fields ..).2.2.2.1, (decrease_fields ..).2.1, (decrease_fields ..).2.2.2.2.1, ?_⟩
  dsimp only
  split
  · rfl
  · rfl

set_option maxRecDepth 1000000 in
/-- C7 witness: deleting 40 through the opened cursor on the full eight-key
root of `c8_pre` (`M = 8`): 7 keys remain, above the low-water mark 6, so the
deletion stops after the window contraction — the theorem applies and its
frame conclusions evaluate on this input. -/
theorem C7_witness :
    (ttree_delete_at_cursor c8_pre (ttree_lookup intCmp c8_pre 40).2).1 =
      ttree_key2item c8_pre (lget (getn c8_pre 0).keys (ttree_lookup intCmp c8_pre 40).2.idx) ∧
    (ttree_delete_at_cursor c8_pre (ttree_lookup intCmp c8_pre 40).2).2.1.root = c8_pre.root ∧
    windowKeys (getn (ttree_delete_at_cursor c8_pre (ttree_lookup intCmp c8_pre 40).2).2.1 0) =
      (windowKeys (getn c8_pre 0)).eraseIdx
        ((ttree_lookup intCmp c8_pre 40).2.idx - (getn c8_pre 0).min_idx).toNat ∧
    (ttree_delete_at_cursor c8_pre (ttree_lookup intCmp c8_pre 40).2).2.2.state =
      CURSOR_CLOSED := by
  have h := C7_delete_stops_above_low_water c8_pre (ttree_lookup intCmp c8_pre 40).2 0
    (by decide) (by decide) (by decide) (by decide) (by decide) (by decide) (by decide)
    (by decide) (by decide)
  exact ⟨h.1, h.2.1, h.2.2.2.2.1, h.2.2.2.2.2.2.2.2.2.2.2⟩

/-- C6: the post-insert fixup performs at most one rebalance (single or
double rotation) over any walk, however long: the ghost rotation counter of
`fixup_ins_loop` (and hence of `fixup_after_insertion`) never exceeds 1.
Moreover each step behaves as claimed: when the updated ancestor's balance
factor becomes 0 the walk stops with no further change and no rotation, and
when it reaches ±2 that subtree is rebalanced once and the walk stops
immediately. -/
theorem C6_fixup_after_insertion_stops :
    (∀ (t : Ttree) (cursor : Option TtreeCursor) (delta : Int) (fuel : Nat)
       (start : Option Nat), (fixup_ins_loop t cursor delta fuel start).2.2 ≤ 1) ∧
    (∀ (t : Ttree) (nid : Nat) (cursor : Option TtreeCursor),
      (fixup_after_insertion t nid cursor).2.2 ≤ 1) ∧
    (∀ (t : Ttree) (cursor : Option TtreeCursor) (delta : Int) (fuel : Nat) (nid : Nat),
      nid < t.nodes.length → (getn t nid).bfc + delta = 0 →
      fixup_ins_loop t cursor delta (fuel + 1) (some nid) =
        (updn t nid (fun n => { n with bfc := n.bfc + delta }), cursor, 0)) ∧
    (∀ (t : Ttree) (cursor : Option TtreeCursor) (delta : Int) (fuel : Nat) (nid : Nat),
      nid < t.nodes.length → (getn t nid).bfc + delta ≠ 0 →
      ((getn t nid).bfc + delta < -1 ∨ (getn t nid).bfc + delta > 1) →
      fixup_ins_loop t cursor delta (fuel + 1) (some nid) =
        ((rebalance (updn t nid (fun n => { n with bfc := n.bfc + delta })) nid cursor).1,
         (rebalance (updn t nid (fun n => { n with bfc := n.bfc + delta })) nid cursor).2.2,
         1)) := by
  have hloop : ∀ (fuel : Nat) (t : Ttree) (cursor : Option TtreeCursor) (delta : Int)
      (start : Option Nat), (fixup_ins_loop t cursor delta fuel start).2.2 ≤ 1 := by
    intro fuel
    induction fuel with
    | zero =>
      intro t cursor delta start
      cases start <;> simp [fixup_ins_loop]
    | succ fuel ih =>
      intro t cursor delta start
      cases start with
      | none => simp [fixup_ins_loop]
      | some nid =>
        rw [fixup_ins_loop]
        split
        · exact Nat.zero_le 1
        · split
          · exact Nat.le_refl 1
          · exact ih ..
  have hupd : ∀ (t : Ttree) (nid : Nat) (delta : Int), nid < t.nodes.length →
      (getn (updn t nid (fun n => { n with bfc := n.bfc + delta })) nid).bfc =
        (getn t nid).bfc + delta := by
    intro t nid delta h
    rw [updn_eq, getn_setn_self _ _ _ h]
  refine ⟨fun t c d fuel s => hloop fuel t c d s,
    fun t nid c => hloop _ _ _ _ _, fun t cursor delta fuel nid hv h0 => ?_,
    fun t cursor delta fuel nid hv h0 h2 => ?_⟩
  · rw [fixup_ins_loop, if_pos (by rw [hupd t nid delta hv]; exact h0)]
  · rw [fixup_ins_loop, if_neg (by rw [hupd t nid delta hv]; exact h0),
      if_pos (show subtree_is_unbalanced _ by
        unfold subtree_is_unbalanced
        rw [hupd t nid delta hv]
        exact h2)]

/-- C6 witness: on the heap `c3_tree`, an update leaving node 2 balanced
stops the walk with zero rotations, while the −2 at node 0 triggers exactly
one rebalance; the loop counter never exceeds 1. -/
theorem C6_witness :
    (fixup_ins_loop c3_tree none 0 4 (some 0)).2.2 ≤ 1 ∧
    fixup_ins_loop c3_tree none 0 4 (some 2) =
      (updn c3_tree 2 (fun n => { n with bfc := n.bfc + 0 }), none, 0) ∧
    fixup_ins_loop c3_tree none 0 4 (some 0) =
      ((rebalance (updn c3_tree 0 (fun n => { n with bfc := n.bfc + 0 })) 0 none).1,
       (rebalance (updn c3_tree 0 (fun n => { n with bfc := n.bfc + 0 })) 0 none).2.2,
       1) := by
  refine ⟨C6_fixup_after_insertion_stops.1 c3_tree none 0 4 (some 0), ?_, ?_⟩
  · exact C6_fixup_after_insertion_stops.2.2.1 c3_tree none 0 3 2 (by decide) (by decide)
  · exact C6_fixup_after_insertion_stops.2.2.2 c3_tree none 0 3 0 (by decide) (by decide)
      (by decide)

/-- C10 witness: on the concrete tree `c4_tree`, a `PENDING` cursor yields
NULL from both accessors, while an `OPENED` cursor on slot 3 (key 20)
yields the key 20 and the item 20 − key_offs = 20. -/
theorem C10_witness :
    (ttree_key_from_cursor c4_tree ⟨some 0, 3, TNODE_BOUND, CURSOR_PENDING⟩ = none ∧
     ttree_item_from_cursor c4_tree ⟨some 0, 3, TNODE_BOUND, CURSOR_PENDING⟩ = none) ∧
    (ttree_key_from_cursor c4_tree ⟨some 0, 3, TNODE_BOUND, CURSOR_OPENED⟩ =
       some (lget (getn c4_tree 0).keys 3) ∧
     ttree_item_from_cursor c4_tree ⟨some 0, 3, TNODE_BOUND, CURSOR_OPENED⟩ =
       some (ttree_key2item c4_tree (lget (getn c4_tree 0).keys 3))) := by
  constructor
  · exact (C10_cursor_accessors_guard_state c4_tree
      ⟨some 0, 3, TNODE_BOUND, CURSOR_PENDING⟩).1 (by decide)
  · have h := (C10_cursor_accessors_guard_state c4_tree
      ⟨some 0, 3, TNODE_BOUND, CURSOR_OPENED⟩).2 rfl
    exact ⟨h.1, h.2 (by decide)⟩

end TStar
